import Mathlib

/-!
Sysyphuzz warm-up heuristic (`warmup_10_flag0107.go`)

A shallow embedding of the Go file `warmup_10_flag0107.go` (package `fuzzer`):
the deny list kept per basic block, the two passes that read and maintain it
(`DenyCheck`, `UpdateDenyList`), the published under-covered set (`Update`),
the overlap of one execution's coverage with it (`findOverlap`) and its record
per call (`CheckPerCall`).

Modelling conventions

* A Go map is a `GoMap`: a duplicate-free list of key/value pairs. The order of
  the list is the order in which a `range` statement visits the map, which Go
  leaves unspecified; every statement about "every map" therefore covers every
  visiting order. A `nil` map argument is `none`, a non-nil one `some m`.
* `uint64` keys are natural numbers (no arithmetic is done on them).
  `uint32` arithmetic is done on natural numbers reduced modulo `2^32`.
* A method with a pointer receiver returns the new receiver; a map argument
  that the method writes to is returned as well.
* Maps are values: two names for one Go map object are not represented.
* The first set of definitions takes the receiver as `newWarmup` makes it; a
  second set (`RawWarmup`) follows the same code with the run-time panics of
  nil maps, nil interfaces and nil pointers, and is shown to agree with the
  first on every receiver reachable from `newWarmup`.
-/

namespace Fuzzer

/-! ## Go maps -/

/-- Value stored under key `k` in a list of pairs (first match). -/
def lookupL {K V : Type} [DecidableEq K] : List (K × V) → K → Option V
  | [], _ => none
  | (k', v') :: t, k => if k' = k then some v' else lookupL t k

/-- Assignment `m[k] = v` on a list of pairs: overwrite the pair with key `k`
where it stands, or add a new pair when there is none. -/
def setL {K V : Type} [DecidableEq K] : List (K × V) → K → V → List (K × V)
  | [], k, v => [(k, v)]
  | (k', v') :: t, k, v => if k' = k then (k, v) :: t else (k', v') :: setL t k v

/-- A non-nil Go map `map[K]V`: its pairs in visiting order, no key twice. -/
structure GoMap (K V : Type) where
  entries : List (K × V)
  nodup : (entries.map Prod.fst).Nodup

namespace GoMap

variable {K V : Type}

/-- The map made by `make(map[K]V)`. -/
def empty : GoMap K V := ⟨[], List.nodup_nil⟩

/-- The keys, in visiting order. -/
def keys (m : GoMap K V) : List K := m.entries.map Prod.fst

/-- Go `len(m)`. -/
def len (m : GoMap K V) : Nat := m.entries.length

/-- Go `v, ok := m[k]`: `some v` when `ok`, `none` otherwise. -/
def get? [DecidableEq K] (m : GoMap K V) (k : K) : Option V := lookupL m.entries k

/-- Go `m[k] = v`. -/
def set [DecidableEq K] (m : GoMap K V) (k : K) (v : V) : GoMap K V :=
  ⟨setL m.entries k v, by
    have key : ∀ l : List (K × V), (l.map Prod.fst).Nodup →
        (∀ j, j ∈ (setL l k v).map Prod.fst → j ∈ l.map Prod.fst ∨ j = k) ∧
        ((setL l k v).map Prod.fst).Nodup := by
      intro l
      induction l with
      | nil => intro _; simp [setL]
      | cons p t ih =>
        obtain ⟨k', v'⟩ := p
        intro h
        have h' : k' ∉ t.map Prod.fst ∧ (t.map Prod.fst).Nodup := by
          simpa [List.nodup_cons] using h
        by_cases hk : k' = k
        · subst hk
          refine ⟨?_, ?_⟩
          · intro j hj
            left
            simpa [setL] using hj
          · simpa [setL, List.nodup_cons] using h
        · obtain ⟨ih1, ih2⟩ := ih h'.2
          refine ⟨?_, ?_⟩
          · intro j hj
            have hj' : j = k' ∨ j ∈ (setL t k v).map Prod.fst := by
              simpa [setL, hk] using hj
            rcases hj' with hj' | hj'
            · left; simp [hj']
            · rcases ih1 j hj' with h1 | h1
              · left; simp [h1]
              · right; exact h1
          · have hnot : k' ∉ (setL t k v).map Prod.fst := by
              intro hmem
              rcases ih1 k' hmem with h1 | h1
              · exact h'.1 h1
              · exact hk h1
            have : ((k', v') :: setL t k v).map Prod.fst =
                k' :: (setL t k v).map Prod.fst := rfl
            simp only [setL, hk, if_false, this]
            exact List.nodup_cons.mpr ⟨hnot, ih2⟩
    exact (key m.entries m.nodup).2⟩

end GoMap

/-- Go `v, ok := m[k]` on a map that may be `nil`: a `nil` map has no key. -/
def lookup {K V : Type} [DecidableEq K] (m : Option (GoMap K V)) (k : K) : Option V :=
  match m with
  | none => none
  | some m => m.get? k

/-- The keys of a map that may be `nil`, in visiting order. -/
def keysOf {K V : Type} (m : Option (GoMap K V)) : List K :=
  match m with
  | none => []
  | some m => m.keys

/-- Conversion to `uint32`: reduction modulo `2^32`. -/
def u32 (n : Nat) : Nat := n % 2 ^ 32

/-! ## The data of `Warmup` -/

/-- Go `type Info struct`: `HitNum` and `ChooseTime` are `uint32`. -/
structure Info where
  HitNum : Nat
  ChooseTime : Nat
  Deny : Bool
  deriving DecidableEq, Repr

/-- Go `type Warmup struct`. `UnderCoverBBSet` is the map held by the
`atomic.Value` (`none`: a `nil` map was stored); `DenyList` is the map made by
`newWarmup`, which no method reassigns. -/
structure Warmup where
  UnderCoverBBSet : Option (GoMap Nat Bool)
  DenyList : GoMap Nat Info

/-- Go `newWarmup`: an empty published set and an empty deny list. -/
def newWarmup : Warmup :=
  { UnderCoverBBSet := some GoMap.empty, DenyList := GoMap.empty }

/-! ## `DenyCheck` -/

/-- The variables the loop of `DenyCheck` writes to. -/
structure DenyCheckState where
  DenyList : GoMap Nat Info
  tmpBBSet : GoMap Nat Bool
  denyNum : Nat

/-- One turn of `for k := range tmpBBSet` in `DenyCheck`. -/
def DenyCheck.body (pcHitMap : GoMap Nat Nat) (s : DenyCheckState) (k : Nat) :
    DenyCheckState :=
  match s.DenyList.get? k with
  | some info =>
    match pcHitMap.get? k with
    | some hitCount =>
      if info.HitNum = hitCount ∧ info.Deny = true then
        { s with tmpBBSet := s.tmpBBSet.set k false, denyNum := u32 (s.denyNum + 1) }
      else if info.Deny = true then
        { s with
          DenyList := s.DenyList.set k { HitNum := hitCount, ChooseTime := 0, Deny := false }
          tmpBBSet := s.tmpBBSet.set k true }
      else s
    | none => s
  | none => s

/-- What `DenyCheck` leaves behind: the receiver, the caller's `tmpBBSet`
(written in place by the Go code) and the returned `uint32`. -/
structure DenyCheckResult where
  warmup : Warmup
  tmpBBSet : Option (GoMap Nat Bool)
  ret : Nat

/-- Go `func (warmup *Warmup) DenyCheck(tmpBBSet, pcHitMap) uint32`. -/
def Warmup.DenyCheck (warmup : Warmup) (tmpBBSet : Option (GoMap Nat Bool))
    (pcHitMap : Option (GoMap Nat Nat)) : DenyCheckResult :=
  match tmpBBSet, pcHitMap with
  | some bbs, some hits =>
    if warmup.DenyList.len = 0 then
      { warmup := warmup, tmpBBSet := tmpBBSet, ret := 0 }
    else
      let s := bbs.keys.foldl (DenyCheck.body hits)
        { DenyList := warmup.DenyList, tmpBBSet := bbs, denyNum := 0 }
      { warmup := { warmup with DenyList := s.DenyList }
        tmpBBSet := some s.tmpBBSet
        ret := s.denyNum }
  | _, _ => { warmup := warmup, tmpBBSet := tmpBBSet, ret := 0 }

/-! ## `UpdateDenyList` -/

/-- One turn of `for k, info := range warmup.DenyList` in `UpdateDenyList`. -/
def UpdateDenyList.maintenance (pcHitMap : GoMap Nat Nat) (dl : GoMap Nat Info)
    (e : Nat × Info) : GoMap Nat Info :=
  match pcHitMap.get? e.1 with
  | some hitCount =>
    if e.2.HitNum = hitCount then
      let ChooseTime := u32 (e.2.ChooseTime + 1)
      dl.set e.1
        { HitNum := e.2.HitNum
          ChooseTime := ChooseTime
          Deny := if ChooseTime > 10 then true else e.2.Deny }
    else
      dl.set e.1 { HitNum := hitCount, ChooseTime := 0, Deny := false }
  | none => dl

/-- One turn of `for k, ifuse := range tmpBBSet` in `UpdateDenyList`. -/
def UpdateDenyList.admission (pcHitMap : GoMap Nat Nat) (dl : GoMap Nat Info)
    (e : Nat × Bool) : GoMap Nat Info :=
  if dl.get? e.1 = none ∧ e.2 = true then
    match pcHitMap.get? e.1 with
    | some hitCount => dl.set e.1 { HitNum := hitCount, ChooseTime := 0, Deny := false }
    | none => dl
  else dl

/-- Go `func (warmup *Warmup) UpdateDenyList(tmpBBSet, pcHitMap) uint32`:
the new receiver and the returned `uint32`. -/
def Warmup.UpdateDenyList (warmup : Warmup) (tmpBBSet : Option (GoMap Nat Bool))
    (pcHitMap : Option (GoMap Nat Nat)) : Warmup × Nat :=
  match tmpBBSet, pcHitMap with
  | some bbs, some hits =>
    let dl1 := warmup.DenyList.entries.foldl (UpdateDenyList.maintenance hits) warmup.DenyList
    let dl2 := bbs.entries.foldl (UpdateDenyList.admission hits) dl1
    ({ warmup with DenyList := dl2 }, u32 dl2.len)
  | _, _ => (warmup, 0)

/-- A run of `UpdateDenyList` calls, one per pair of arguments, in order. -/
def Warmup.UpdateDenyListSeq (warmup : Warmup) :
    List (Option (GoMap Nat Bool) × Option (GoMap Nat Nat)) → Warmup
  | [] => warmup
  | c :: cs => Warmup.UpdateDenyListSeq (warmup.UpdateDenyList c.1 c.2).1 cs

/-- The receiver after `n` calls of `UpdateDenyList` with the same arguments. -/
def Warmup.UpdateDenyListTimes (warmup : Warmup) (tmpBBSet : Option (GoMap Nat Bool))
    (pcHitMap : Option (GoMap Nat Nat)) : Nat → Warmup
  | 0 => warmup
  | n + 1 => ((Warmup.UpdateDenyListTimes warmup tmpBBSet pcHitMap n).UpdateDenyList
      tmpBBSet pcHitMap).1

/-! ## `Update` and `findOverlap` -/

/-- Go `func (warmup *Warmup) Update(tmpBBSet)`: publish `tmpBBSet`. -/
def Warmup.Update (warmup : Warmup) (tmpBBSet : Option (GoMap Nat Bool)) : Warmup :=
  { warmup with UnderCoverBBSet := tmpBBSet }

/-- Go `func (warmup *Warmup) findOverlap(coveredBBs []uint64) []uint64`:
the loop appends to `overlapBBs` each covered block found in the published
map. -/
def Warmup.findOverlap (warmup : Warmup) (coveredBBs : List Nat) : List Nat :=
  coveredBBs.foldl
    (fun overlapBBs bb =>
      match lookup warmup.UnderCoverBBSet bb with
      | some _ => overlapBBs ++ [bb]
      | none => overlapBBs)
    []

/-! ## Vocabulary of the statements -/

/-- The address `k` is in the deny list with `Deny = true`, its hit count is
known, and the recorded `HitNum` equals that hit count. -/
def stillDenied (dl : GoMap Nat Info) (pcHitMap : Option (GoMap Nat Nat)) (k : Nat) : Bool :=
  match dl.get? k, lookup pcHitMap k with
  | some info, some hitCount => info.Deny && decide (info.HitNum = hitCount)
  | _, _ => false

/-- The pair `(k, ifuse)` of `tmpBBSet` is one that `UpdateDenyList` admits to
the deny list `dl`: it is flagged `true`, `k` is not in `dl`, and the hit count
of `k` is known. -/
def admits (dl : GoMap Nat Info) (pcHitMap : GoMap Nat Nat) (e : Nat × Bool) : Bool :=
  e.2 && (dl.get? e.1).isNone && (pcHitMap.get? e.1).isSome

/-- The addresses of `tmpBBSet` admitted to the deny list `dl`. -/
def admitted (dl : GoMap Nat Info) (tmpBBSet : GoMap Nat Bool) (pcHitMap : GoMap Nat Nat) :
    List Nat :=
  (tmpBBSet.entries.filter (admits dl pcHitMap)).map Prod.fst

/-- The map with the keys `0, 1, ..., n - 1`, every one bound to `v`. -/
def wideMap {V : Type} (n : Nat) (v : V) : GoMap Nat V :=
  ⟨(List.range n).map (fun k => (k, v)), by
    have : ((List.range n).map (fun k => (k, v))).map Prod.fst = List.range n := by
      simp [List.map_map, Function.comp_def]
    rw [this]
    exact List.nodup_range n⟩

/-- A deny list with the single suppressed entry `1 ↦ {HitNum: 5, ChooseTime: 11, Deny: true}`. -/
def denyOne : Warmup :=
  { UnderCoverBBSet := some GoMap.empty
    DenyList := ⟨[(1, { HitNum := 5, ChooseTime := 11, Deny := true })], by decide⟩ }

/-- The candidates `{1: true, 2: true}` of the scenario. -/
def scenarioCandidates : GoMap Nat Bool := ⟨[(1, true), (2, true)], by decide⟩

/-- The hit counts `{1: 5, 2: 5}` of the scenario. -/
def scenarioHitCounts : GoMap Nat Nat := ⟨[(1, 5), (2, 5)], by decide⟩

/-- The map literal `{1: v}`. -/
def single {V : Type} (v : V) : GoMap Nat V := ⟨[(1, v)], by simp⟩

/-! ## `CheckPerCall` -/

/-- Modelled from the spec: the execution-result type `flatrpc.CallInfo`, which
is declared in another package. The spec says it exposes the sequence of
covered addresses of one execution; that is the field `Cover` read by
`CheckPerCall`. -/
structure CallInfo where
  Cover : List Nat
  deriving DecidableEq, Repr

/-- Go `type warmupCall struct`. -/
structure warmupCall where
  warmedBBs : List Nat
  deriving DecidableEq, Repr

/-- Go `func (warmup *Warmup) CheckPerCall(info, call, warmupcalls)`: the
receiver and the map `*warmupcalls` after the call (`none`: a nil map). `info`
is `none` for a nil pointer; the pointer `warmupcalls` itself is taken to point
to a map variable; the log lines are left out. -/
def Warmup.CheckPerCall (warmup : Warmup) (info : Option CallInfo) (call : Int)
    (warmupcalls : Option (GoMap Int warmupCall)) : Warmup × Option (GoMap Int warmupCall) :=
  match info with
  | none => (warmup, warmupcalls)
  | some info =>
    let overlapBBs := warmup.findOverlap info.Cover
    if overlapBBs.length = 0 then (warmup, warmupcalls)
    else
      let made := match warmupcalls with
        | none => GoMap.empty
        | some m => m
      (warmup, some (made.set call { warmedBBs := overlapBBs }))

/-- The states of a `Warmup` that a program can reach: the one made by
`newWarmup`, and the one left by any call of a method on a reachable state. -/
inductive Reachable : Warmup → Prop
  | new : Reachable newWarmup
  | denyCheck (w : Warmup) (tmpBBSet : Option (GoMap Nat Bool))
      (pcHitMap : Option (GoMap Nat Nat)) :
      Reachable w → Reachable (w.DenyCheck tmpBBSet pcHitMap).warmup
  | updateDenyList (w : Warmup) (tmpBBSet : Option (GoMap Nat Bool))
      (pcHitMap : Option (GoMap Nat Nat)) :
      Reachable w → Reachable (w.UpdateDenyList tmpBBSet pcHitMap).1
  | update (w : Warmup) (tmpBBSet : Option (GoMap Nat Bool)) :
      Reachable w → Reachable (w.Update tmpBBSet)
  | checkPerCall (w : Warmup) (info : Option CallInfo) (call : Int)
      (warmupcalls : Option (GoMap Int warmupCall)) :
      Reachable w → Reachable (w.CheckPerCall info call warmupcalls).1

/-- The candidates of the scenario, visited in the other order. -/
def scenarioCandidatesSwapped : GoMap Nat Bool := ⟨[(2, true), (1, true)], by decide⟩

/-- A deny list where `1` and `2` are suppressed with `HitNum = 5`. -/
def twoDenied : Warmup :=
  { UnderCoverBBSet := some GoMap.empty
    DenyList := ⟨[(1, { HitNum := 5, ChooseTime := 11, Deny := true }),
      (2, { HitNum := 5, ChooseTime := 11, Deny := true })], by decide⟩ }

/-- The deny list of `twoDenied`, visited in the other order. -/
def twoDeniedSwapped : Warmup :=
  { UnderCoverBBSet := some GoMap.empty
    DenyList := ⟨[(2, { HitNum := 5, ChooseTime := 11, Deny := true }),
      (1, { HitNum := 5, ChooseTime := 11, Deny := true })], by decide⟩ }

/-! ## The methods with their run-time failures

The definitions above take the receiver as `newWarmup` makes it: the
`atomic.Value` holds a map and `DenyList` is a non-nil map. The definitions
below follow the same Go code without that: a field may be unset, an
assignment to a nil map, a type assertion on a nil interface and a nil pointer
dereference are run-time panics, and each method returns everything it can
reach (the receiver and the maps of the caller) or the panic. -/

/-- The run-time panics that the statements of `warmup_10_flag0107.go` can
raise. -/
inductive Panic where
  /-- Go `assignment to entry in nil map`. -/
  | assignNilMap
  /-- Go `interface conversion: interface is nil`, from `x.(T)`. -/
  | nilInterface
  /-- Go `invalid memory address or nil pointer dereference`, from `*p`. -/
  | nilPointer
  deriving DecidableEq, Repr

/-- Go `m[k] = v` on a map that may be nil. -/
def assign {K V : Type} [DecidableEq K] (m : Option (GoMap K V)) (k : K) (v : V) :
    Except Panic (Option (GoMap K V)) :=
  match m with
  | none => .error Panic.assignNilMap
  | some m => .ok (some (m.set k v))

/-- Go `len(m)` on a map that may be nil. -/
def lenOf {K V : Type} (m : Option (GoMap K V)) : Nat :=
  match m with
  | none => 0
  | some m => m.len

/-- The pairs that `range m` visits on a map that may be nil. -/
def entriesOf {K V : Type} (m : Option (GoMap K V)) : List (K × V) :=
  match m with
  | none => []
  | some m => m.entries

/-- Go `type Warmup struct` with fields that may be unset: `UnderCoverBBSet` is
what `Load()` returns (`none`: the nil interface of an `atomic.Value` nothing
was stored in; `some none`: a nil map); `DenyList` is `none` for a nil map. -/
structure RawWarmup where
  UnderCoverBBSet : Option (Option (GoMap Nat Bool))
  DenyList : Option (GoMap Nat Info)

/-- Go `&Warmup{}`. -/
def RawWarmup.zero : RawWarmup := { UnderCoverBBSet := none, DenyList := none }

/-- The variables the loop of `DenyCheck` writes to. -/
structure RawDenyCheckState where
  DenyList : Option (GoMap Nat Info)
  tmpBBSet : Option (GoMap Nat Bool)
  denyNum : Nat

/-- One turn of `for k := range tmpBBSet` in `DenyCheck`. -/
def RawDenyCheck.body (pcHitMap : Option (GoMap Nat Nat)) (s : RawDenyCheckState) (k : Nat) :
    Except Panic RawDenyCheckState :=
  match lookup s.DenyList k with
  | some info =>
    match lookup pcHitMap k with
    | some hitCount =>
      if info.HitNum = hitCount ∧ info.Deny = true then do
        let bbs ← assign s.tmpBBSet k false
        pure { s with tmpBBSet := bbs, denyNum := u32 (s.denyNum + 1) }
      else if info.Deny = true then do
        let dl ← assign s.DenyList k { HitNum := hitCount, ChooseTime := 0, Deny := false }
        let bbs ← assign s.tmpBBSet k true
        pure { s with DenyList := dl, tmpBBSet := bbs }
      else pure s
    | none => pure s
  | none => pure s

/-- What a method leaves behind: the receiver, the caller's `tmpBBSet` and
`pcHitMap`, and the returned `uint32`. -/
structure RawResult where
  warmup : RawWarmup
  tmpBBSet : Option (GoMap Nat Bool)
  pcHitMap : Option (GoMap Nat Nat)
  ret : Nat

/-- Go `func (warmup *Warmup) DenyCheck(tmpBBSet, pcHitMap) uint32`. -/
def RawWarmup.DenyCheck (warmup : RawWarmup) (tmpBBSet : Option (GoMap Nat Bool))
    (pcHitMap : Option (GoMap Nat Nat)) : Except Panic RawResult :=
  if tmpBBSet.isNone = true ∨ pcHitMap.isNone = true ∨ lenOf warmup.DenyList = 0 then
    pure { warmup := warmup, tmpBBSet := tmpBBSet, pcHitMap := pcHitMap, ret := 0 }
  else do
    let s ← (keysOf tmpBBSet).foldlM (RawDenyCheck.body pcHitMap)
      { DenyList := warmup.DenyList, tmpBBSet := tmpBBSet, denyNum := 0 }
    pure { warmup := { warmup with DenyList := s.DenyList }
           tmpBBSet := s.tmpBBSet
           pcHitMap := pcHitMap
           ret := s.denyNum }

/-- One turn of `for k, info := range warmup.DenyList` in `UpdateDenyList`. -/
def RawUpdateDenyList.maintenance (pcHitMap : Option (GoMap Nat Nat))
    (dl : Option (GoMap Nat Info)) (e : Nat × Info) : Except Panic (Option (GoMap Nat Info)) :=
  match lookup pcHitMap e.1 with
  | some hitCount =>
    if e.2.HitNum = hitCount then
      let ChooseTime := u32 (e.2.ChooseTime + 1)
      assign dl e.1
        { HitNum := e.2.HitNum
          ChooseTime := ChooseTime
          Deny := if ChooseTime > 10 then true else e.2.Deny }
    else
      assign dl e.1 { HitNum := hitCount, ChooseTime := 0, Deny := false }
  | none => pure dl

/-- One turn of `for k, ifuse := range tmpBBSet` in `UpdateDenyList`. -/
def RawUpdateDenyList.admission (pcHitMap : Option (GoMap Nat Nat))
    (dl : Option (GoMap Nat Info)) (e : Nat × Bool) : Except Panic (Option (GoMap Nat Info)) :=
  if lookup dl e.1 = none ∧ e.2 = true then
    match lookup pcHitMap e.1 with
    | some hitCount => assign dl e.1 { HitNum := hitCount, ChooseTime := 0, Deny := false }
    | none => pure dl
  else pure dl

/-- Go `func (warmup *Warmup) UpdateDenyList(tmpBBSet, pcHitMap) uint32`. -/
def RawWarmup.UpdateDenyList (warmup : RawWarmup) (tmpBBSet : Option (GoMap Nat Bool))
    (pcHitMap : Option (GoMap Nat Nat)) : Except Panic RawResult :=
  if tmpBBSet.isNone = true ∨ pcHitMap.isNone = true then
    pure { warmup := warmup, tmpBBSet := tmpBBSet, pcHitMap := pcHitMap, ret := 0 }
  else do
    let dl1 ← (entriesOf warmup.DenyList).foldlM (RawUpdateDenyList.maintenance pcHitMap)
      warmup.DenyList
    let dl2 ← (entriesOf tmpBBSet).foldlM (RawUpdateDenyList.admission pcHitMap) dl1
    pure { warmup := { warmup with DenyList := dl2 }
           tmpBBSet := tmpBBSet
           pcHitMap := pcHitMap
           ret := u32 (lenOf dl2) }

/-- Go `func (warmup *Warmup) Update(tmpBBSet)`. `Store` panics on a nil
interface or on a value of another type than the one stored before; the
argument is always a `map[uint64]bool`, nil or not, so neither can happen. -/
def RawWarmup.Update (warmup : RawWarmup) (tmpBBSet : Option (GoMap Nat Bool)) : RawWarmup :=
  { warmup with UnderCoverBBSet := some tmpBBSet }

/-- Go `func (warmup *Warmup) findOverlap(coveredBBs []uint64) []uint64`; the
type assertion `Load().(map[uint64]bool)` panics on a nil interface. -/
def RawWarmup.findOverlap (warmup : RawWarmup) (coveredBBs : List Nat) :
    Except Panic (List Nat) :=
  match warmup.UnderCoverBBSet with
  | none => .error Panic.nilInterface
  | some currentBBSet =>
    pure (coveredBBs.foldl
      (fun overlapBBs bb =>
        match lookup currentBBSet bb with
        | some _ => overlapBBs ++ [bb]
        | none => overlapBBs)
      [])

/-- Go `func (warmup *Warmup) CheckPerCall(info, call, warmupcalls)`: the
receiver and the map variable behind `warmupcalls` after the call. The pointer
`warmupcalls` is `none` when nil, `some m` when it points to the map `m`; `m`
is `none` for a nil map. -/
def RawWarmup.CheckPerCall (warmup : RawWarmup) (info : Option CallInfo) (call : Int)
    (warmupcalls : Option (Option (GoMap Int warmupCall))) :
    Except Panic (RawWarmup × Option (Option (GoMap Int warmupCall))) :=
  match info with
  | none => pure (warmup, warmupcalls)
  | some info => do
    let overlapBBs ← warmup.findOverlap info.Cover
    if overlapBBs.length = 0 then pure (warmup, warmupcalls)
    else
      match warmupcalls with
      | none => .error Panic.nilPointer
      | some m =>
        let made := match m with
          | none => some GoMap.empty
          | some m => some m
        let written ← assign made call { warmedBBs := overlapBBs }
        pure (warmup, some written)

/-- The receiver as `newWarmup` makes it, among the receivers with fields that
may be unset. -/
def Warmup.toRaw (w : Warmup) : RawWarmup :=
  { UnderCoverBBSet := some w.UnderCoverBBSet, DenyList := some w.DenyList }

section MapFacts

variable {K V : Type} [DecidableEq K]

theorem lookupL_setL (l : List (K × V)) (k j : K) (v : V) :
    lookupL (setL l k v) j = if k = j then some v else lookupL l j := by
  induction l with
  | nil => simp [setL, lookupL]
  | cons p t ih =>
    obtain ⟨k', v'⟩ := p
    by_cases hk : k' = k
    · subst hk
      by_cases hj : k' = j <;> simp [setL, lookupL, hj]
    · by_cases hj : k' = j
      · subst hj
        have : ¬ k = k' := fun h => hk h.symm
        simp [setL, lookupL, hk, this]
      · simp [setL, lookupL, hk, hj, ih]

theorem lookupL_eq_none_iff (l : List (K × V)) (k : K) :
    lookupL l k = none ↔ k ∉ l.map Prod.fst := by
  induction l with
  | nil => simp [lookupL]
  | cons p t ih =>
    obtain ⟨k', v'⟩ := p
    by_cases hk : k' = k
    · simp [lookupL, hk]
    · have : ¬ k = k' := fun h => hk h.symm
      simp [lookupL, hk, ih, this]

theorem lookupL_of_mem (l : List (K × V)) (hl : (l.map Prod.fst).Nodup) (k : K) (v : V)
    (h : (k, v) ∈ l) : lookupL l k = some v := by
  induction l with
  | nil => simp at h
  | cons p t ih =>
    obtain ⟨k', v'⟩ := p
    have hl' : k' ∉ t.map Prod.fst ∧ (t.map Prod.fst).Nodup := by
      simpa [List.nodup_cons] using hl
    rcases List.mem_cons.mp h with h1 | h1
    · cases h1
      simp [lookupL]
    · have hk : k' ≠ k := by
        intro e
        subst e
        exact hl'.1 (List.mem_map.mpr ⟨(k', v), h1, rfl⟩)
      simp [lookupL, hk, ih hl'.2 h1]

theorem setL_keys (l : List (K × V)) (k : K) (v : V) :
    (setL l k v).map Prod.fst =
      if k ∈ l.map Prod.fst then l.map Prod.fst else l.map Prod.fst ++ [k] := by
  induction l with
  | nil => simp [setL]
  | cons p t ih =>
    obtain ⟨k', v'⟩ := p
    by_cases hk : k' = k
    · simp [setL, hk]
    · have hk' : ¬ k = k' := fun h => hk h.symm
      by_cases hm : k ∈ t.map Prod.fst
      · simp only [setL, hk, if_false, List.map_cons, ih, if_pos hm]
        rw [if_pos (List.mem_cons_of_mem k' hm)]
      · simp only [setL, hk, if_false, List.map_cons, ih, if_neg hm]
        have : k ∉ k' :: t.map Prod.fst := by
          simp only [List.mem_cons, not_or]
          exact ⟨hk', hm⟩
        rw [if_neg this]
        simp

theorem GoMap.get?_set (m : GoMap K V) (k j : K) (v : V) :
    (m.set k v).get? j = if k = j then some v else m.get? j :=
  lookupL_setL m.entries k j v

theorem GoMap.get?_eq_none_iff (m : GoMap K V) (k : K) :
    m.get? k = none ↔ k ∉ m.keys :=
  lookupL_eq_none_iff m.entries k

theorem GoMap.get?_of_mem (m : GoMap K V) (k : K) (v : V) (h : (k, v) ∈ m.entries) :
    m.get? k = some v :=
  lookupL_of_mem m.entries m.nodup k v h

theorem GoMap.keys_set (m : GoMap K V) (k : K) (v : V) :
    (m.set k v).keys = if k ∈ m.keys then m.keys else m.keys ++ [k] :=
  setL_keys m.entries k v

omit [DecidableEq K] in
theorem GoMap.len_eq_keys (m : GoMap K V) : m.len = m.keys.length := by
  simp [GoMap.len, GoMap.keys]

omit [DecidableEq K] in
theorem GoMap.ext_entries (m m' : GoMap K V) (h : m.entries = m'.entries) : m = m' := by
  cases m; cases m'; cases h; rfl

theorem lookup_some (m : GoMap K V) (k : K) : lookup (some m) k = m.get? k := rfl

theorem lookup_none (k : K) : lookup (none : Option (GoMap K V)) k = none := rfl

theorem lookup_eq_none_iff (m : Option (GoMap K V)) (k : K) :
    lookup m k = none ↔ k ∉ keysOf m := by
  cases m with
  | none => simp [lookup, keysOf]
  | some m => exact m.get?_eq_none_iff k

theorem lookup_isSome_iff (m : Option (GoMap K V)) (k : K) :
    (lookup m k).isSome = true ↔ k ∈ keysOf m := by
  rw [← not_iff_not, ← lookup_eq_none_iff]
  cases lookup m k <;> simp

end MapFacts

/-- A loop over keyed items whose turn for an item writes the map only at the
item's key: after the loop, a key that was not visited is bound as before, and
a visited key is bound as after its own turn on the map the loop started from. -/
theorem foldl_keyed {E V : Type} (f : GoMap Nat V → E → GoMap Nat V) (key : E → Nat)
    (hother : ∀ m e j, j ≠ key e → (f m e).get? j = m.get? j)
    (hcongr : ∀ m m' e, m'.get? (key e) = m.get? (key e) →
      (f m' e).get? (key e) = (f m e).get? (key e))
    (es : List E) (hes : (es.map key).Nodup) :
    ∀ m : GoMap Nat V,
      (∀ j, j ∉ es.map key → (es.foldl f m).get? j = m.get? j) ∧
      (∀ e ∈ es, (es.foldl f m).get? (key e) = (f m e).get? (key e)) := by
  induction es with
  | nil => intro m; simp
  | cons e t ih =>
    intro m
    have hnd : key e ∉ t.map key ∧ (t.map key).Nodup := by
      simpa [List.nodup_cons] using hes
    obtain ⟨ih1, ih2⟩ := ih hnd.2 (f m e)
    simp only [List.foldl_cons]
    refine ⟨?_, ?_⟩
    · intro j hj
      have hj' : j ≠ key e ∧ j ∉ t.map key := by
        simpa [not_or] using hj
      rw [ih1 j hj'.2, hother m e j hj'.1]
    · intro e' he'
      rcases List.mem_cons.mp he' with h | h
      · subst h
        exact ih1 _ hnd.1
      · have hne : key e' ≠ key e := by
          intro heq
          exact hnd.1 (heq ▸ List.mem_map_of_mem key h)
        rw [ih2 e' h]
        exact hcongr m (f m e) e' (hother m e _ hne)

theorem lookupL_mem {K V : Type} [DecidableEq K] (l : List (K × V)) (k : K) (v : V)
    (h : lookupL l k = some v) : (k, v) ∈ l := by
  induction l with
  | nil => simp [lookupL] at h
  | cons p t ih =>
    obtain ⟨k', v'⟩ := p
    by_cases hk : k' = k
    · simp [lookupL, hk] at h
      simp [hk, h]
    · simp [lookupL, hk] at h
      exact List.mem_cons_of_mem _ (ih h)

theorem GoMap.mem_of_get? {K V : Type} [DecidableEq K] (m : GoMap K V) (k : K) (v : V)
    (h : m.get? k = some v) : (k, v) ∈ m.entries :=
  lookupL_mem m.entries k v h

/-! ## `findOverlap` -/

theorem foldl_append_filter (p : Nat → Bool) (l acc : List Nat) :
    l.foldl (fun out bb => if p bb then out ++ [bb] else out) acc = acc ++ l.filter p := by
  induction l generalizing acc with
  | nil => simp
  | cons x t ih =>
    by_cases hx : p x <;> simp [List.foldl_cons, ih, hx, List.filter_cons]

theorem findOverlap_eq_filter (w : Warmup) (C : List Nat) :
    w.findOverlap C = C.filter (fun bb => decide (bb ∈ keysOf w.UnderCoverBBSet)) := by
  have hfun : (fun (overlapBBs : List Nat) (bb : Nat) =>
      match lookup w.UnderCoverBBSet bb with
      | some _ => overlapBBs ++ [bb]
      | none => overlapBBs) =
      (fun out bb => if (fun bb => decide (bb ∈ keysOf w.UnderCoverBBSet)) bb
        then out ++ [bb] else out) := by
    funext out bb
    by_cases h : bb ∈ keysOf w.UnderCoverBBSet
    · have h1 := (lookup_isSome_iff w.UnderCoverBBSet bb).mpr h
      cases hl : lookup w.UnderCoverBBSet bb with
      | none => simp [hl] at h1
      | some b => simp [h]
    · have h1 := (lookup_eq_none_iff w.UnderCoverBBSet bb).mpr h
      simp [h1, h]
  unfold Warmup.findOverlap
  rw [hfun, foldl_append_filter]
  simp

/-- C1. `findOverlap` is an order-preserving filter: on every instance it
returns the covered blocks that are keys of the published map, in the order of
`coveredBBs` and with repetitions kept; the published map is the one last given
to `Update`; the result is empty exactly when no covered block is a key; and it
is empty on a new instance. -/
theorem findOverlap_filter_published (w : Warmup) (S : Option (GoMap Nat Bool))
    (C : List Nat) :
    w.findOverlap C = C.filter (fun bb => decide (bb ∈ keysOf w.UnderCoverBBSet)) ∧
    (w.Update S).findOverlap C = C.filter (fun bb => decide (bb ∈ keysOf S)) ∧
    ((w.Update S).findOverlap C = [] ↔ ∀ bb ∈ C, bb ∉ keysOf S) ∧
    newWarmup.findOverlap C = [] := by
  refine ⟨findOverlap_eq_filter w C, findOverlap_eq_filter (w.Update S) C, ?_, ?_⟩
  · rw [findOverlap_eq_filter (w.Update S) C]
    simp [Warmup.Update, List.filter_eq_nil_iff]
  · rw [findOverlap_eq_filter newWarmup C]
    simp [newWarmup, keysOf, GoMap.keys, GoMap.empty]

/-! ## `DenyCheck` -/

theorem u32_succ_u32 (a : Nat) : u32 (u32 a + 1) = u32 (a + 1) := by
  unfold u32
  omega

theorem DenyCheck.body_other (hits : GoMap Nat Nat) (s : DenyCheckState) (k j : Nat)
    (h : j ≠ k) :
    (DenyCheck.body hits s k).DenyList.get? j = s.DenyList.get? j ∧
    (DenyCheck.body hits s k).tmpBBSet.get? j = s.tmpBBSet.get? j := by
  have hkj : ¬ k = j := fun e => h e.symm
  unfold DenyCheck.body
  split
  · split
    · split_ifs <;> simp [GoMap.get?_set, hkj]
    · simp
  · simp

theorem DenyCheck.body_congr (hits : GoMap Nat Nat) (s s' : DenyCheckState) (k : Nat)
    (hd : s'.DenyList.get? k = s.DenyList.get? k)
    (hb : s'.tmpBBSet.get? k = s.tmpBBSet.get? k) :
    (DenyCheck.body hits s' k).DenyList.get? k = (DenyCheck.body hits s k).DenyList.get? k ∧
    (DenyCheck.body hits s' k).tmpBBSet.get? k = (DenyCheck.body hits s k).tmpBBSet.get? k := by
  unfold DenyCheck.body
  rw [hd]
  split
  · split
    · split_ifs <;> simp [GoMap.get?_set, hd, hb]
    · simp [hd, hb]
  · simp [hd, hb]

theorem stillDenied_eq (dl : GoMap Nat Info) (hits : GoMap Nat Nat) (k : Nat) :
    stillDenied dl (some hits) k = true ↔
      ∃ info, dl.get? k = some info ∧ info.Deny = true ∧ hits.get? k = some info.HitNum := by
  simp only [stillDenied, lookup_some]
  cases hd : dl.get? k with
  | none => simp
  | some info =>
    cases hh : hits.get? k with
    | none => simp
    | some hc =>
      simp only [Bool.and_eq_true, decide_eq_true_eq, Option.some.injEq, exists_eq_left']
      constructor
      · rintro ⟨h1, h2⟩
        exact ⟨h1, h2.symm⟩
      · rintro ⟨h1, h2⟩
        exact ⟨h1, h2.symm⟩

theorem DenyCheck.body_denyNum (hits : GoMap Nat Nat) (s : DenyCheckState) (k a : Nat)
    (ha : s.denyNum = u32 a) :
    (DenyCheck.body hits s k).denyNum =
      u32 (a + if stillDenied s.DenyList (some hits) k = true then 1 else 0) := by
  by_cases hsd : stillDenied s.DenyList (some hits) k = true
  · rw [if_pos hsd]
    obtain ⟨info, h1, h2, h3⟩ := (stillDenied_eq _ _ _).mp hsd
    simp [DenyCheck.body, h1, h2, h3, ha, u32_succ_u32]
  · rw [if_neg hsd]
    have hno : ¬ ∃ info, s.DenyList.get? k = some info ∧ info.Deny = true ∧
        hits.get? k = some info.HitNum := fun h => hsd ((stillDenied_eq _ _ _).mpr h)
    unfold DenyCheck.body
    split
    · rename_i info hd
      split
      · rename_i hc hh
        by_cases h2 : info.Deny = true
        · have h1 : ¬ info.HitNum = hc := fun e => hno ⟨info, hd, h2, e ▸ hh⟩
          simp [h1, h2, ha]
        · simp [h2, ha]
      · simpa using ha
    · simpa using ha

theorem stillDenied_congr (dl dl' : GoMap Nat Info) (hits : Option (GoMap Nat Nat)) (k : Nat)
    (h : dl'.get? k = dl.get? k) : stillDenied dl' hits k = stillDenied dl hits k := by
  unfold stillDenied
  rw [h]

theorem DenyCheck.loop_spec (hits : GoMap Nat Nat) (ks : List Nat) (hks : ks.Nodup) :
    ∀ (s : DenyCheckState) (a : Nat), s.denyNum = u32 a →
      (∀ j, j ∉ ks →
        (ks.foldl (DenyCheck.body hits) s).DenyList.get? j = s.DenyList.get? j ∧
        (ks.foldl (DenyCheck.body hits) s).tmpBBSet.get? j = s.tmpBBSet.get? j) ∧
      (∀ j, j ∈ ks →
        (ks.foldl (DenyCheck.body hits) s).DenyList.get? j =
          (DenyCheck.body hits s j).DenyList.get? j ∧
        (ks.foldl (DenyCheck.body hits) s).tmpBBSet.get? j =
          (DenyCheck.body hits s j).tmpBBSet.get? j) ∧
      (ks.foldl (DenyCheck.body hits) s).denyNum =
        u32 (a + (ks.filter (stillDenied s.DenyList (some hits))).length) := by
  induction ks with
  | nil =>
    intro s a ha
    simp [ha]
  | cons k t ih =>
    intro s a ha
    have hk : k ∉ t := (List.nodup_cons.mp hks).1
    have ht : t.Nodup := (List.nodup_cons.mp hks).2
    obtain ⟨ih1, ih2, ih3⟩ := ih ht (DenyCheck.body hits s k) _ (DenyCheck.body_denyNum hits s k a ha)
    simp only [List.foldl_cons]
    refine ⟨?_, ?_, ?_⟩
    · intro j hj
      have hjk : j ≠ k := fun e => hj (e ▸ List.mem_cons_self _ _)
      have hjt : j ∉ t := fun e => hj (List.mem_cons_of_mem _ e)
      obtain ⟨a1, a2⟩ := ih1 j hjt
      obtain ⟨b1, b2⟩ := DenyCheck.body_other hits s k j hjk
      exact ⟨a1.trans b1, a2.trans b2⟩
    · intro j hj
      rcases List.mem_cons.mp hj with e | hjt
      · subst e
        exact ih1 j hk
      · have hjk : j ≠ k := fun e => hk (e ▸ hjt)
        obtain ⟨a1, a2⟩ := ih2 j hjt
        obtain ⟨b1, b2⟩ := DenyCheck.body_other hits s k j hjk
        obtain ⟨c1, c2⟩ := DenyCheck.body_congr hits s (DenyCheck.body hits s k) j b1 b2
        exact ⟨a1.trans c1, a2.trans c2⟩
    · rw [ih3]
      have hfil : t.filter (stillDenied (DenyCheck.body hits s k).DenyList (some hits)) =
          t.filter (stillDenied s.DenyList (some hits)) := by
        apply List.filter_congr
        intro j hjt
        have hjk : j ≠ k := fun e => hk (e ▸ hjt)
        exact stillDenied_congr _ _ _ _ (DenyCheck.body_other hits s k j hjk).1
      rw [hfil]
      by_cases hsd : stillDenied s.DenyList (some hits) k = true
      · simp [List.filter_cons, hsd]
        congr 1
        omega
      · simp [List.filter_cons, hsd]

theorem GoMap.get?_of_len_zero {K V : Type} [DecidableEq K] (m : GoMap K V) (h : m.len = 0)
    (k : K) : m.get? k = none := by
  have : m.entries = [] := List.length_eq_zero.mp h
  simp [GoMap.get?, this, lookupL]

theorem stillDenied_of_len_zero (dl : GoMap Nat Info) (hits : Option (GoMap Nat Nat))
    (h : dl.len = 0) (k : Nat) : stillDenied dl hits k = false := by
  simp [stillDenied, dl.get?_of_len_zero h k]

theorem stillDenied_nil_hits (dl : GoMap Nat Info) (k : Nat) :
    stillDenied dl none k = false := by
  unfold stillDenied
  rw [lookup_none]
  split <;> simp_all

theorem DenyCheck_ret (w : Warmup) (cands : Option (GoMap Nat Bool))
    (hits : Option (GoMap Nat Nat)) :
    (w.DenyCheck cands hits).ret =
      u32 ((keysOf cands).filter (stillDenied w.DenyList hits)).length := by
  cases cands with
  | none => simp [Warmup.DenyCheck, keysOf, u32]
  | some bbs =>
    cases hits with
    | none =>
      have : (keysOf (some bbs)).filter (stillDenied w.DenyList none) = [] := by
        simp [List.filter_eq_nil_iff, stillDenied_nil_hits]
      simp [Warmup.DenyCheck, this, u32]
    | some h =>
      by_cases hlen : w.DenyList.len = 0
      · have : (keysOf (some bbs)).filter (stillDenied w.DenyList (some h)) = [] := by
          simp [List.filter_eq_nil_iff, stillDenied_of_len_zero _ _ hlen]
        simp [Warmup.DenyCheck, hlen, this, u32]
      · have h3 := (DenyCheck.loop_spec h bbs.keys bbs.nodup
          { DenyList := w.DenyList, tmpBBSet := bbs, denyNum := 0 } 0 (by simp [u32])).2.2
        simp only [Warmup.DenyCheck, hlen, if_false, keysOf]
        simpa using h3

theorem DenyCheck_at_key (w : Warmup) (bbs : GoMap Nat Bool) (hits : GoMap Nat Nat)
    (hlen : w.DenyList.len ≠ 0) (k : Nat) (hk : k ∈ bbs.keys) :
    (w.DenyCheck (some bbs) (some hits)).warmup.DenyList.get? k =
      (DenyCheck.body hits { DenyList := w.DenyList, tmpBBSet := bbs, denyNum := 0 } k).DenyList.get? k ∧
    lookup (w.DenyCheck (some bbs) (some hits)).tmpBBSet k =
      (DenyCheck.body hits { DenyList := w.DenyList, tmpBBSet := bbs, denyNum := 0 } k).tmpBBSet.get? k := by
  have h2 := (DenyCheck.loop_spec hits bbs.keys bbs.nodup
    { DenyList := w.DenyList, tmpBBSet := bbs, denyNum := 0 } 0 (by simp [u32])).2.1 k hk
  simp only [Warmup.DenyCheck, hlen, if_false, lookup_some]
  exact h2

theorem DenyCheck_off_key (w : Warmup) (bbs : GoMap Nat Bool) (hits : GoMap Nat Nat)
    (k : Nat) (hk : k ∉ bbs.keys) :
    (w.DenyCheck (some bbs) (some hits)).warmup.DenyList.get? k = w.DenyList.get? k := by
  by_cases hlen : w.DenyList.len = 0
  · simp [Warmup.DenyCheck, hlen]
  · have h1 := (DenyCheck.loop_spec hits bbs.keys bbs.nodup
      { DenyList := w.DenyList, tmpBBSet := bbs, denyNum := 0 } 0 (by simp [u32])).1 k hk
    simp only [Warmup.DenyCheck, hlen, if_false]
    exact h1.1

theorem DenyCheck_stillDenied_key (w : Warmup) (cands : Option (GoMap Nat Bool))
    (hits : Option (GoMap Nat Nat)) (k : Nat) (hk : k ∈ keysOf cands)
    (hsd : stillDenied w.DenyList hits k = true) :
    lookup (w.DenyCheck cands hits).tmpBBSet k = some false ∧
    (w.DenyCheck cands hits).warmup.DenyList.get? k = w.DenyList.get? k := by
  cases cands with
  | none => simp [keysOf] at hk
  | some bbs =>
    cases hits with
    | none => simp [stillDenied_nil_hits] at hsd
    | some h =>
      have hlen : w.DenyList.len ≠ 0 := by
        intro e
        simp [stillDenied_of_len_zero _ _ e] at hsd
      obtain ⟨info, h1, h2, h3⟩ := (stillDenied_eq _ _ _).mp hsd
      obtain ⟨a1, a2⟩ := DenyCheck_at_key w bbs h hlen k hk
      rw [a1, a2]
      simp [DenyCheck.body, h1, h2, h3, GoMap.get?_set]

/-! ### Maps with `n` keys -/

theorem lookupL_map_const {V : Type} (l : List Nat) (v : V) (k : Nat) :
    lookupL (l.map (fun k => (k, v))) k = if k ∈ l then some v else none := by
  induction l with
  | nil => simp [lookupL]
  | cons x t ih =>
    by_cases hx : x = k
    · simp [lookupL, hx]
    · have : ¬ k = x := fun e => hx e.symm
      simp [lookupL, hx, ih, this]

theorem wideMap_get? {V : Type} (n : Nat) (v : V) (k : Nat) :
    (wideMap n v).get? k = if k < n then some v else none := by
  simp [wideMap, GoMap.get?, lookupL_map_const]

theorem wideMap_keys {V : Type} (n : Nat) (v : V) : (wideMap n v).keys = List.range n := by
  simp [wideMap, GoMap.keys, List.map_map, Function.comp_def]

theorem wideMap_len {V : Type} (n : Nat) (v : V) : (wideMap n v).len = n := by
  simp [wideMap, GoMap.len]

theorem wideMap_denied_count (n : Nat) (w : Warmup)
    (hw : w.DenyList = wideMap n { HitNum := 0, ChooseTime := 11, Deny := true }) :
    ((keysOf (some (wideMap n true))).filter
      (stillDenied w.DenyList (some (wideMap n 0)))).length = n := by
  have hall : ∀ k ∈ List.range n,
      stillDenied w.DenyList (some (wideMap n 0)) k = true := by
    intro k hk
    have hk' : k < n := List.mem_range.mp hk
    rw [stillDenied_eq]
    exact ⟨_, by rw [hw, wideMap_get?, if_pos hk'], rfl, by rw [wideMap_get?, if_pos hk']⟩
  simp only [keysOf, wideMap_keys]
  rw [List.filter_eq_self.mpr hall, List.length_range]

/-! ### The claims on `DenyCheck` -/

/-- C2 (counterexample). With `2^32` candidates that are all suppressed with an
unchanged hit count, the `uint32` counter of `DenyCheck` wraps: the call returns
`0`, not the number `2^32` of deselected addresses. -/
theorem DenyCheck_count_wraps :
    (Warmup.DenyCheck
        { UnderCoverBBSet := none
          DenyList := wideMap (2 ^ 32) { HitNum := 0, ChooseTime := 11, Deny := true } }
        (some (wideMap (2 ^ 32) true)) (some (wideMap (2 ^ 32) 0))).ret = 0 ∧
    ((keysOf (some (wideMap (2 ^ 32) true))).filter
      (stillDenied (wideMap (2 ^ 32) { HitNum := 0, ChooseTime := 11, Deny := true })
        (some (wideMap (2 ^ 32) 0)))).length = 2 ^ 32 := by
  have hc := wideMap_denied_count (2 ^ 32)
    { UnderCoverBBSet := none
      DenyList := wideMap (2 ^ 32) { HitNum := 0, ChooseTime := 11, Deny := true } } rfl
  refine ⟨?_, hc⟩
  rw [DenyCheck_ret, hc]
  rfl

/-- C2 (amended). `DenyCheck` returns, modulo `2^32`, the number of keys of
`tmpBBSet` that are in the deny list with `Deny = true`, have a known hit count
and a recorded `HitNum` equal to it (that number itself when it is below
`2^32`); each such key is flagged `false` afterwards, its deny-list entry is
unchanged, so it is suppressed with an unchanged hit count again and the next
`DenyCheck` with the same hit counts flags it `false` again; and the result is
`0` when `tmpBBSet` or `pcHitMap` is nil or empty or the deny list is empty. -/
theorem DenyCheck_count_mod (w : Warmup) (cands : Option (GoMap Nat Bool))
    (hits : Option (GoMap Nat Nat)) :
    (w.DenyCheck cands hits).ret =
      ((keysOf cands).filter (stillDenied w.DenyList hits)).length % 2 ^ 32 ∧
    (((keysOf cands).filter (stillDenied w.DenyList hits)).length < 2 ^ 32 →
      (w.DenyCheck cands hits).ret =
        ((keysOf cands).filter (stillDenied w.DenyList hits)).length) ∧
    (∀ k ∈ keysOf cands, stillDenied w.DenyList hits k = true →
      lookup (w.DenyCheck cands hits).tmpBBSet k = some false ∧
      (w.DenyCheck cands hits).warmup.DenyList.get? k = w.DenyList.get? k ∧
      stillDenied (w.DenyCheck cands hits).warmup.DenyList hits k = true ∧
      ∀ later : Option (GoMap Nat Bool), k ∈ keysOf later →
        lookup ((w.DenyCheck cands hits).warmup.DenyCheck later hits).tmpBBSet k =
          some false) ∧
    ((cands = none ∨ hits = none ∨ keysOf cands = [] ∨ keysOf hits = [] ∨
        w.DenyList.len = 0) → (w.DenyCheck cands hits).ret = 0) := by
  have hret := DenyCheck_ret w cands hits
  refine ⟨hret, ?_, ?_, ?_⟩
  · intro hlt
    rw [hret, u32, Nat.mod_eq_of_lt hlt]
  · intro k hk hsd
    obtain ⟨h1, h2⟩ := DenyCheck_stillDenied_key w cands hits k hk hsd
    have h3 : stillDenied (w.DenyCheck cands hits).warmup.DenyList hits k = true := by
      rw [stillDenied_congr _ _ _ _ h2]
      exact hsd
    exact ⟨h1, h2, h3, fun later hl =>
      (DenyCheck_stillDenied_key _ later hits k hl h3).1⟩
  · intro h
    have hnil : (keysOf cands).filter (stillDenied w.DenyList hits) = [] := by
      rw [List.filter_eq_nil_iff]
      intro k hk
      rcases h with h | h | h | h | h
      · subst h
        simp [keysOf] at hk
      · subst h
        simp [stillDenied_nil_hits]
      · rw [h] at hk
        simp at hk
      · have : lookup hits k = none := (lookup_eq_none_iff hits k).mpr (by rw [h]; simp)
        unfold stillDenied
        rw [this]
        split <;> simp_all
      · simp [stillDenied_of_len_zero _ _ h]
    rw [hret, hnil]
    rfl

/-- C3. Suppression release: a key `k` of `tmpBBSet` that is in the deny list
with `Deny = true` and whose known hit count differs from the recorded `HitNum`
is flagged `true` after `DenyCheck`, its deny-list entry is
`{HitNum: hitCount, ChooseTime: 0, Deny: false}`, and the returned count is the
count over the keys other than `k`. -/
theorem DenyCheck_release (w : Warmup) (cands : Option (GoMap Nat Bool))
    (hits : Option (GoMap Nat Nat)) (k : Nat) (info : Info) (hitCount : Nat)
    (hk : k ∈ keysOf cands) (hd : w.DenyList.get? k = some info)
    (hdeny : info.Deny = true) (hh : lookup hits k = some hitCount)
    (hne : hitCount ≠ info.HitNum) :
    lookup (w.DenyCheck cands hits).tmpBBSet k = some true ∧
    (w.DenyCheck cands hits).warmup.DenyList.get? k =
      some { HitNum := hitCount, ChooseTime := 0, Deny := false } ∧
    (w.DenyCheck cands hits).ret =
      ((keysOf cands).filter
        (fun j => decide (j ≠ k) && stillDenied w.DenyList hits j)).length % 2 ^ 32 := by
  have hnot : stillDenied w.DenyList hits k = false := by
    have hne' : ¬ info.HitNum = hitCount := fun e => hne e.symm
    simp [stillDenied, hd, hh, hne']
  have hfil : (keysOf cands).filter (stillDenied w.DenyList hits) =
      (keysOf cands).filter (fun j => decide (j ≠ k) && stillDenied w.DenyList hits j) := by
    apply List.filter_congr
    intro j _
    by_cases hjk : j = k
    · subst hjk
      simp [hnot]
    · simp [hjk]
  refine ⟨?_, ?_, ?_⟩
  case refine_3 =>
    rw [DenyCheck_ret, hfil]
    rfl
  all_goals
    cases cands with
    | none => simp [keysOf] at hk
    | some bbs =>
      cases hits with
      | none => simp [lookup_none] at hh
      | some h =>
        have hlen : w.DenyList.len ≠ 0 := by
          intro e
          rw [w.DenyList.get?_of_len_zero e k] at hd
          cases hd
        have hh' : h.get? k = some hitCount := hh
        have hne' : ¬ info.HitNum = hitCount := fun e => hne e.symm
        obtain ⟨a1, a2⟩ := DenyCheck_at_key w bbs h hlen k hk
        first
          | rw [a1]
            simp [DenyCheck.body, hd, hdeny, hh', hne', GoMap.get?_set]
          | rw [a2]
            simp [DenyCheck.body, hd, hdeny, hh', hne', GoMap.get?_set]

/-- C3 (witness). The deny list `{1: {5, 11, true}}`, the candidates
`{1: false}` and the hit counts `{1: 9}`. -/
theorem DenyCheck_release_witness :
    lookup (denyOne.DenyCheck (some (single false)) (some (single 9))).tmpBBSet 1 =
      some true ∧
    (denyOne.DenyCheck (some (single false)) (some (single 9))).warmup.DenyList.get? 1 =
      some { HitNum := 9, ChooseTime := 0, Deny := false } ∧
    (denyOne.DenyCheck (some (single false)) (some (single 9))).ret =
      ((keysOf (some (single false))).filter
        (fun j => decide (j ≠ 1) &&
          stillDenied denyOne.DenyList (some (single 9)) j)).length % 2 ^ 32 :=
  DenyCheck_release denyOne (some (single false)) (some (single 9)) 1
    { HitNum := 5, ChooseTime := 11, Deny := true } 9
    (by decide) (by decide) rfl (by decide) (by decide)

/-- C8 (counterexample). The address `1` is suppressed and its hit count is
not known (`pcHitMap` is empty): `DenyCheck` leaves it suppressed and leaves it
flagged `true`. -/
theorem DenyCheck_unknown_hit_stays_selected :
    1 ∈ keysOf (some (single true)) ∧
    ((denyOne.DenyCheck (some (single true)) (some GoMap.empty)).warmup.DenyList.get? 1 =
      some { HitNum := 5, ChooseTime := 11, Deny := true }) ∧
    lookup (denyOne.DenyCheck (some (single true)) (some GoMap.empty)).tmpBBSet 1 =
      some true := by
  decide

/-- C8 (amended). After `DenyCheck`, every key `k` of `tmpBBSet` that is also a
key of `pcHitMap` and whose deny-list entry has `Deny = true` after the call is
flagged `false` after the call. -/
theorem DenyCheck_deny_invariant (w : Warmup) (cands : Option (GoMap Nat Bool))
    (hits : Option (GoMap Nat Nat)) (k : Nat) (info : Info)
    (hk : k ∈ keysOf cands) (hh : k ∈ keysOf hits)
    (hd : (w.DenyCheck cands hits).warmup.DenyList.get? k = some info)
    (hdeny : info.Deny = true) :
    lookup (w.DenyCheck cands hits).tmpBBSet k = some false := by
  cases cands with
  | none => simp [keysOf] at hk
  | some bbs =>
    cases hits with
    | none => simp [keysOf] at hh
    | some h =>
      by_cases hlen : w.DenyList.len = 0
      · have : (w.DenyCheck (some bbs) (some h)).warmup.DenyList.get? k = none := by
          simp [Warmup.DenyCheck, hlen, w.DenyList.get?_of_len_zero hlen k]
        rw [this] at hd
        cases hd
      · obtain ⟨a1, a2⟩ := DenyCheck_at_key w bbs h hlen k hk
        rw [a1] at hd
        rw [a2]
        have hsome : (lookup (some h) k).isSome = true := (lookup_isSome_iff _ k).mpr hh
        rw [lookup_some] at hsome
        obtain ⟨hc, hhc⟩ := Option.isSome_iff_exists.mp hsome
        cases hd0 : w.DenyList.get? k with
        | none => simp [DenyCheck.body, hd0] at hd
        | some info0 =>
          by_cases h2 : info0.Deny = true
          · by_cases h1 : info0.HitNum = hc
            · simp [DenyCheck.body, hd0, hhc, h1, h2, GoMap.get?_set]
            · simp [DenyCheck.body, hd0, hhc, h1, h2, GoMap.get?_set] at hd
              rw [← hd] at hdeny
              cases hdeny
          · simp [DenyCheck.body, hd0, hhc, h2] at hd
            rw [hd] at h2
            exact absurd hdeny h2

/-- C8 (witness). The suppressed address `1` with the unchanged hit count `5`. -/
theorem DenyCheck_deny_invariant_witness :
    lookup (denyOne.DenyCheck (some (single true)) (some (single 5))).tmpBBSet 1 =
      some false :=
  DenyCheck_deny_invariant denyOne (some (single true)) (some (single 5)) 1
    { HitNum := 5, ChooseTime := 11, Deny := true } (by decide) (by decide) (by decide) rfl

/-! ## `UpdateDenyList` -/

theorem maintenance_other (hits : GoMap Nat Nat) (dl : GoMap Nat Info) (e : Nat × Info)
    (j : Nat) (h : j ≠ e.1) : (UpdateDenyList.maintenance hits dl e).get? j = dl.get? j := by
  have hne : ¬ e.1 = j := fun x => h x.symm
  unfold UpdateDenyList.maintenance
  split
  · split_ifs <;> simp [GoMap.get?_set, hne]
  · rfl

theorem maintenance_congr (hits : GoMap Nat Nat) (dl dl' : GoMap Nat Info) (e : Nat × Info)
    (h : dl'.get? e.1 = dl.get? e.1) :
    (UpdateDenyList.maintenance hits dl' e).get? e.1 =
      (UpdateDenyList.maintenance hits dl e).get? e.1 := by
  unfold UpdateDenyList.maintenance
  split
  · split_ifs <;> simp [GoMap.get?_set]
  · exact h

theorem maintenance_keys (hits : GoMap Nat Nat) (dl : GoMap Nat Info) (e : Nat × Info)
    (h : e.1 ∈ dl.keys) : (UpdateDenyList.maintenance hits dl e).keys = dl.keys := by
  unfold UpdateDenyList.maintenance
  split
  · split_ifs <;> simp [GoMap.keys_set, h]
  · rfl

theorem maintenance_fold_keys (hits : GoMap Nat Nat) (es : List (Nat × Info)) :
    ∀ dl : GoMap Nat Info, (∀ e ∈ es, e.1 ∈ dl.keys) →
      (es.foldl (UpdateDenyList.maintenance hits) dl).keys = dl.keys := by
  induction es with
  | nil => intro dl _; rfl
  | cons e t ih =>
    intro dl h
    have hk := maintenance_keys hits dl e (h e (List.mem_cons_self _ _))
    simp only [List.foldl_cons]
    rw [ih (UpdateDenyList.maintenance hits dl e)
      (fun e' he' => by rw [hk]; exact h e' (List.mem_cons_of_mem _ he')), hk]

theorem admission_other (hits : GoMap Nat Nat) (dl : GoMap Nat Info) (e : Nat × Bool)
    (j : Nat) (h : j ≠ e.1) : (UpdateDenyList.admission hits dl e).get? j = dl.get? j := by
  have hne : ¬ e.1 = j := fun x => h x.symm
  unfold UpdateDenyList.admission
  split_ifs
  · split
    · simp [GoMap.get?_set, hne]
    · rfl
  · rfl

theorem admission_congr (hits : GoMap Nat Nat) (dl dl' : GoMap Nat Info) (e : Nat × Bool)
    (h : dl'.get? e.1 = dl.get? e.1) :
    (UpdateDenyList.admission hits dl' e).get? e.1 =
      (UpdateDenyList.admission hits dl e).get? e.1 := by
  unfold UpdateDenyList.admission
  rw [h]
  split_ifs
  · split
    · simp [GoMap.get?_set]
    · exact h
  · exact h

theorem admits_congr (hits : GoMap Nat Nat) (dl dl' : GoMap Nat Info) (e : Nat × Bool)
    (h : dl'.get? e.1 = dl.get? e.1) : admits dl' hits e = admits dl hits e := by
  unfold admits
  rw [h]

theorem admission_keys (hits : GoMap Nat Nat) (dl : GoMap Nat Info) (e : Nat × Bool) :
    (UpdateDenyList.admission hits dl e).keys =
      if admits dl hits e = true then dl.keys ++ [e.1] else dl.keys := by
  unfold UpdateDenyList.admission admits
  by_cases h1 : dl.get? e.1 = none
  · have hk : e.1 ∉ dl.keys := (dl.get?_eq_none_iff e.1).mp h1
    by_cases h2 : e.2 = true
    · cases h3 : hits.get? e.1 with
      | none => simp [h1, h2]
      | some hc => simp [h1, h2, GoMap.keys_set, hk]
    · simp [h1, h2]
  · have : (dl.get? e.1).isNone = false := by
      cases hd : dl.get? e.1 with
      | none => exact absurd hd h1
      | some x => rfl
    simp [h1, this]

theorem admission_fold_keys (hits : GoMap Nat Nat) (es : List (Nat × Bool))
    (hes : (es.map Prod.fst).Nodup) :
    ∀ dl : GoMap Nat Info,
      (es.foldl (UpdateDenyList.admission hits) dl).keys =
        dl.keys ++ (es.filter (admits dl hits)).map Prod.fst := by
  induction es with
  | nil => intro dl; simp
  | cons e t ih =>
    intro dl
    have hnd : e.1 ∉ t.map Prod.fst ∧ (t.map Prod.fst).Nodup := by
      simpa [List.nodup_cons] using hes
    have hfil : t.filter (admits (UpdateDenyList.admission hits dl e) hits) =
        t.filter (admits dl hits) := by
      apply List.filter_congr
      intro e' he'
      have hne : e'.1 ≠ e.1 := by
        intro heq
        exact hnd.1 (heq ▸ List.mem_map_of_mem Prod.fst he')
      exact admits_congr hits _ _ e' (admission_other hits dl e e'.1 hne)
    simp only [List.foldl_cons]
    rw [ih hnd.2, hfil, admission_keys]
    by_cases ha : admits dl hits e = true
    · simp [List.filter_cons, ha]
    · simp [List.filter_cons, ha]

/-- The deny list after the maintenance loop of `UpdateDenyList`. -/
theorem maintained (hits : GoMap Nat Nat) (dl : GoMap Nat Info) :
    (dl.entries.foldl (UpdateDenyList.maintenance hits) dl).keys = dl.keys ∧
    (∀ k, dl.get? k = none →
      (dl.entries.foldl (UpdateDenyList.maintenance hits) dl).get? k = none) ∧
    (∀ k info, dl.get? k = some info →
      (dl.entries.foldl (UpdateDenyList.maintenance hits) dl).get? k =
        (UpdateDenyList.maintenance hits dl (k, info)).get? k) := by
  obtain ⟨h1, h2⟩ := foldl_keyed (UpdateDenyList.maintenance hits) Prod.fst
    (maintenance_other hits) (fun m m' e h => maintenance_congr hits m m' e h)
    dl.entries dl.nodup dl
  refine ⟨?_, ?_, ?_⟩
  · apply maintenance_fold_keys
    intro e he
    exact List.mem_map_of_mem Prod.fst he
  · intro k hk
    rw [h1 k ((dl.get?_eq_none_iff k).mp hk), hk]
  · intro k info hk
    exact h2 (k, info) (dl.mem_of_get? k info hk)

theorem UpdateDenyList_DenyList (w : Warmup) (bbs : GoMap Nat Bool) (hits : GoMap Nat Nat) :
    (w.UpdateDenyList (some bbs) (some hits)).1.DenyList =
      bbs.entries.foldl (UpdateDenyList.admission hits)
        (w.DenyList.entries.foldl (UpdateDenyList.maintenance hits) w.DenyList) := rfl

theorem UpdateDenyList_tracked (w : Warmup) (bbs : GoMap Nat Bool) (hits : GoMap Nat Nat)
    (k : Nat) (info : Info) (hk : w.DenyList.get? k = some info) :
    (w.UpdateDenyList (some bbs) (some hits)).1.DenyList.get? k =
      (UpdateDenyList.maintenance hits w.DenyList (k, info)).get? k := by
  obtain ⟨m1, _, m3⟩ := maintained hits w.DenyList
  obtain ⟨h1, h2⟩ := foldl_keyed (UpdateDenyList.admission hits) Prod.fst
    (admission_other hits) (fun m m' e h => admission_congr hits m m' e h)
    bbs.entries bbs.nodup (w.DenyList.entries.foldl (UpdateDenyList.maintenance hits) w.DenyList)
  have hin : (w.DenyList.entries.foldl (UpdateDenyList.maintenance hits) w.DenyList).get? k ≠
      none := by
    intro e
    rw [GoMap.get?_eq_none_iff, m1, ← GoMap.get?_eq_none_iff, hk] at e
    cases e
  rw [UpdateDenyList_DenyList, ← m3 k info hk]
  cases hb : bbs.get? k with
  | none => exact h1 k ((bbs.get?_eq_none_iff k).mp hb)
  | some b =>
    rw [h2 (k, b) (bbs.mem_of_get? k b hb)]
    unfold UpdateDenyList.admission
    simp [hin]

theorem UpdateDenyList_untracked (w : Warmup) (bbs : GoMap Nat Bool) (hits : GoMap Nat Nat)
    (k : Nat) (hk : w.DenyList.get? k = none) :
    (w.UpdateDenyList (some bbs) (some hits)).1.DenyList.get? k =
      if bbs.get? k = some true then
        (hits.get? k).map (fun hitCount => { HitNum := hitCount, ChooseTime := 0, Deny := false })
      else none := by
  obtain ⟨_, m2, _⟩ := maintained hits w.DenyList
  obtain ⟨h1, h2⟩ := foldl_keyed (UpdateDenyList.admission hits) Prod.fst
    (admission_other hits) (fun m m' e h => admission_congr hits m m' e h)
    bbs.entries bbs.nodup (w.DenyList.entries.foldl (UpdateDenyList.maintenance hits) w.DenyList)
  have hout := m2 k hk
  rw [UpdateDenyList_DenyList]
  cases hb : bbs.get? k with
  | none =>
    rw [h1 k ((bbs.get?_eq_none_iff k).mp hb), hout]
    simp
  | some b =>
    rw [h2 (k, b) (bbs.mem_of_get? k b hb)]
    unfold UpdateDenyList.admission
    cases b with
    | false => simp [hout]
    | true =>
      cases hh : hits.get? k with
      | none => simp [hout, hh]
      | some hc => simp [hout, hh, GoMap.get?_set]

theorem UpdateDenyList_keys (w : Warmup) (bbs : GoMap Nat Bool) (hits : GoMap Nat Nat) :
    (w.UpdateDenyList (some bbs) (some hits)).1.DenyList.keys =
      w.DenyList.keys ++ admitted w.DenyList bbs hits := by
  obtain ⟨m1, m2, _⟩ := maintained hits w.DenyList
  rw [UpdateDenyList_DenyList, admission_fold_keys hits bbs.entries bbs.nodup, m1]
  unfold admitted
  congr 2
  apply List.filter_congr
  intro e _
  unfold admits
  congr 2
  cases hd : w.DenyList.get? e.1 with
  | none => rw [m2 e.1 hd]
  | some info =>
    have : (w.DenyList.entries.foldl (UpdateDenyList.maintenance hits) w.DenyList).get? e.1 ≠
        none := by
      intro e'
      rw [GoMap.get?_eq_none_iff, m1, ← GoMap.get?_eq_none_iff, hd] at e'
      cases e'
    cases hx : (w.DenyList.entries.foldl (UpdateDenyList.maintenance hits) w.DenyList).get? e.1 with
    | none => exact absurd hx this
    | some y => rfl

theorem UpdateDenyList_ret (w : Warmup) (bbs : GoMap Nat Bool) (hits : GoMap Nat Nat) :
    (w.UpdateDenyList (some bbs) (some hits)).2 =
      u32 (w.UpdateDenyList (some bbs) (some hits)).1.DenyList.len := rfl

/-! ### The claims on `UpdateDenyList` -/

/-- C5. Admission: with non-nil `tmpBBSet` and `pcHitMap`, an address that is
not in the deny list before `UpdateDenyList` has afterwards the entry
`{HitNum: hitCount, ChooseTime: 0, Deny: false}` when it is flagged `true` in
`tmpBBSet` and its hit count is known, and has no entry when it is flagged
`false`, or is not a key of `tmpBBSet`, or its hit count is not known. -/
theorem UpdateDenyList_admission (w : Warmup) (bbs : GoMap Nat Bool) (hits : GoMap Nat Nat)
    (k : Nat) (hk : w.DenyList.get? k = none) :
    (∀ hitCount, bbs.get? k = some true → hits.get? k = some hitCount →
      (w.UpdateDenyList (some bbs) (some hits)).1.DenyList.get? k =
        some { HitNum := hitCount, ChooseTime := 0, Deny := false }) ∧
    ((bbs.get? k = some false ∨ bbs.get? k = none ∨ hits.get? k = none) →
      (w.UpdateDenyList (some bbs) (some hits)).1.DenyList.get? k = none) := by
  have h := UpdateDenyList_untracked w bbs hits k hk
  refine ⟨?_, ?_⟩
  · intro hc hb hh
    rw [h, if_pos hb, hh]
    rfl
  · intro hor
    rw [h]
    rcases hor with hb | hb | hh
    · simp [hb]
    · simp [hb]
    · simp [hh]

/-- C5 (witness). A new instance, the candidates `{1: true}` and the hit
counts `{1: 5}`. -/
theorem UpdateDenyList_admission_witness :
    (∀ hitCount, (single true).get? 1 = some true → (single 5).get? 1 = some hitCount →
      (newWarmup.UpdateDenyList (some (single true)) (some (single 5))).1.DenyList.get? 1 =
        some { HitNum := hitCount, ChooseTime := 0, Deny := false }) ∧
    (((single true).get? 1 = some false ∨ (single true).get? 1 = none ∨
        (single 5).get? 1 = none) →
      (newWarmup.UpdateDenyList (some (single true)) (some (single 5))).1.DenyList.get? 1 =
        none) :=
  UpdateDenyList_admission newWarmup (single true) (single 5) 1 (by decide)

/-- C6. Maintenance reset: with non-nil `tmpBBSet` and `pcHitMap`, whatever
`tmpBBSet` holds, an address already in the deny list has afterwards the entry
`{HitNum: hitCount, ChooseTime: 0, Deny: false}` when its hit count is known
and differs from the recorded `HitNum`, and keeps its entry as it was when its
hit count is not known. -/
theorem UpdateDenyList_maintenance_reset (w : Warmup) (bbs : GoMap Nat Bool)
    (hits : GoMap Nat Nat) (k : Nat) (info : Info) (hk : w.DenyList.get? k = some info) :
    (∀ hitCount, hits.get? k = some hitCount → hitCount ≠ info.HitNum →
      (w.UpdateDenyList (some bbs) (some hits)).1.DenyList.get? k =
        some { HitNum := hitCount, ChooseTime := 0, Deny := false }) ∧
    (hits.get? k = none →
      (w.UpdateDenyList (some bbs) (some hits)).1.DenyList.get? k = some info) := by
  have h := UpdateDenyList_tracked w bbs hits k info hk
  refine ⟨?_, ?_⟩
  · intro hc hh hne
    have hne' : ¬ info.HitNum = hc := fun e => hne e.symm
    rw [h]
    simp [UpdateDenyList.maintenance, hh, hne', GoMap.get?_set]
  · intro hh
    rw [h]
    simp [UpdateDenyList.maintenance, hh, hk]

/-- C6 (witness). The suppressed entry `1 ↦ {5, 11, true}`, no candidates, and
the hit counts `{1: 9}`. -/
theorem UpdateDenyList_maintenance_reset_witness :
    (∀ hitCount, (single 9).get? 1 = some hitCount → hitCount ≠ 5 →
      (denyOne.UpdateDenyList (some GoMap.empty) (some (single 9))).1.DenyList.get? 1 =
        some { HitNum := hitCount, ChooseTime := 0, Deny := false }) ∧
    ((single 9).get? 1 = none →
      (denyOne.UpdateDenyList (some GoMap.empty) (some (single 9))).1.DenyList.get? 1 =
        some { HitNum := 5, ChooseTime := 11, Deny := true }) :=
  UpdateDenyList_maintenance_reset denyOne GoMap.empty (single 9) 1
    { HitNum := 5, ChooseTime := 11, Deny := true } (by decide)

theorem UpdateDenyList_no_progress (w : Warmup) (bbs : GoMap Nat Bool) (hits : GoMap Nat Nat)
    (k h c : Nat) (hk : w.DenyList.get? k = some ⟨h, c, decide (11 ≤ c)⟩)
    (hh : hits.get? k = some h) (hc : c + 1 < 2 ^ 32) :
    (w.UpdateDenyList (some bbs) (some hits)).1.DenyList.get? k =
      some ⟨h, c + 1, decide (11 ≤ c + 1)⟩ := by
  have hu : u32 (c + 1) = c + 1 := Nat.mod_eq_of_lt hc
  rw [UpdateDenyList_tracked w bbs hits k _ hk]
  simp only [UpdateDenyList.maintenance, hh, if_true, GoMap.get?_set, hu]
  by_cases h10 : c + 1 > 10
  · have : 11 ≤ c + 1 := h10
    simp [h10, this]
  · have h1 : ¬ 11 ≤ c + 1 := h10
    have h2 : ¬ 11 ≤ c := fun e => h10 (by omega)
    simp [h10, h1, h2]

theorem UpdateDenyListSeq_no_progress (k h : Nat)
    (calls : List (Option (GoMap Nat Bool) × Option (GoMap Nat Nat)))
    (hcalls : ∀ c ∈ calls, c.1 ≠ none ∧ lookup c.2 k = some h) :
    ∀ (w : Warmup) (c : Nat), w.DenyList.get? k = some ⟨h, c, decide (11 ≤ c)⟩ →
      c + calls.length < 2 ^ 32 →
      (w.UpdateDenyListSeq calls).DenyList.get? k =
        some ⟨h, c + calls.length, decide (11 ≤ c + calls.length)⟩ := by
  induction calls with
  | nil => intro w c hw _; simpa [Warmup.UpdateDenyListSeq] using hw
  | cons a t ih =>
    intro w c hw hlen
    obtain ⟨a1, a2⟩ := a
    obtain ⟨h1, h2⟩ := hcalls (a1, a2) (List.mem_cons_self _ _)
    simp only [List.length_cons] at hlen
    cases a1 with
    | none => exact absurd rfl h1
    | some bbs =>
      cases a2 with
      | none => simp [lookup_none] at h2
      | some hits =>
        have hstep := UpdateDenyList_no_progress w bbs hits k h c hw h2 (by omega)
        have := ih (fun x hx => hcalls x (List.mem_cons_of_mem _ hx))
          (w.UpdateDenyList (some bbs) (some hits)).1 (c + 1) hstep (by omega)
        simp only [Warmup.UpdateDenyListSeq, List.length_cons]
        rw [this]
        have e : c + 1 + t.length = c + (t.length + 1) := by omega
        rw [e]

/-- C4 (counterexample). The address `1` is tracked with `ChooseTime = 0`,
`Deny = false` and `HitNum = 5`; one `UpdateDenyList` call with a nil `tmpBBSet`
and the hit counts `{1: 5}` leaves `ChooseTime` at `0` instead of `1`. -/
theorem UpdateDenyList_nil_candidates_no_streak :
    lookup (some (single 5)) 1 = some 5 ∧
    (Warmup.UpdateDenyListSeq
      { UnderCoverBBSet := none
        DenyList := single { HitNum := 5, ChooseTime := 0, Deny := false } }
      [(none, some (single 5))]).DenyList.get? 1 =
        some { HitNum := 5, ChooseTime := 0, Deny := false } := by
  decide

/-- C4 (amended). Streak accumulation: for an address `k` tracked with
`ChooseTime = 0` and `Deny = false`, after `n < 2^32` consecutive
`UpdateDenyList` calls, each with a non-nil `tmpBBSet` and with a known hit
count of `k` equal to the recorded `HitNum`, `ChooseTime` is `n` and `Deny` is
`true` exactly when `n ≥ 11`. -/
theorem UpdateDenyList_streak (w : Warmup) (k h : Nat)
    (calls : List (Option (GoMap Nat Bool) × Option (GoMap Nat Nat)))
    (hadm : w.DenyList.get? k = some { HitNum := h, ChooseTime := 0, Deny := false })
    (hcalls : ∀ c ∈ calls, c.1 ≠ none ∧ lookup c.2 k = some h)
    (hn : calls.length < 2 ^ 32) :
    (w.UpdateDenyListSeq calls).DenyList.get? k =
      some { HitNum := h, ChooseTime := calls.length, Deny := decide (11 ≤ calls.length) } := by
  have := UpdateDenyListSeq_no_progress k h calls hcalls w 0 hadm (by omega)
  simpa using this

/-- C4 (witness). The address `1` tracked with `{5, 0, false}` and two calls
with the candidates `{1: true}` and the hit counts `{1: 5}`. -/
theorem UpdateDenyList_streak_witness :
    (Warmup.UpdateDenyListSeq
      { UnderCoverBBSet := none
        DenyList := single { HitNum := 5, ChooseTime := 0, Deny := false } }
      [(some (single true), some (single 5)),
        (some (single true), some (single 5))]).DenyList.get? 1 =
      some { HitNum := 5, ChooseTime := 2, Deny := false } :=
  UpdateDenyList_streak
    { UnderCoverBBSet := none
      DenyList := single { HitNum := 5, ChooseTime := 0, Deny := false } } 1 5
    [(some (single true), some (single 5)), (some (single true), some (single 5))]
    (by decide)
    (by
      intro c hc
      simp only [List.mem_cons, List.mem_singleton, List.not_mem_nil, or_false, or_self] at hc
      subst hc
      exact ⟨by simp, by decide⟩)
    (by decide)

/-- C7 (counterexample). In the scenario, after 11 `UpdateDenyList` calls in
total both entries have `ChooseTime = 10` and `Deny = false`, and the
`DenyCheck` made then returns `0` and leaves both candidates flagged `true`. -/
theorem scenario_eleven_calls :
    (newWarmup.UpdateDenyListTimes (some scenarioCandidates) (some scenarioHitCounts)
        11).DenyList.entries =
      [(1, { HitNum := 5, ChooseTime := 10, Deny := false }),
        (2, { HitNum := 5, ChooseTime := 10, Deny := false })] ∧
    ((newWarmup.UpdateDenyListTimes (some scenarioCandidates) (some scenarioHitCounts)
        11).DenyCheck (some scenarioCandidates) (some scenarioHitCounts)).ret = 0 ∧
    (((newWarmup.UpdateDenyListTimes (some scenarioCandidates) (some scenarioHitCounts)
        11).DenyCheck (some scenarioCandidates) (some scenarioHitCounts)).tmpBBSet.map
          GoMap.entries) = some [(1, true), (2, true)] := by
  decide

/-- C7 (amended). In the scenario, the first `UpdateDenyList` call returns `2`
and creates the entries `{5, 0, false}` for `1` and `2`; after eleven more
calls (12 in total) both entries have `ChooseTime = 11` and `Deny = true`; and
the `DenyCheck` made then returns `2` and leaves the candidates
`{1: false, 2: false}`. -/
theorem scenario_twelve_calls :
    (newWarmup.UpdateDenyList (some scenarioCandidates) (some scenarioHitCounts)).2 = 2 ∧
    (newWarmup.UpdateDenyList (some scenarioCandidates)
        (some scenarioHitCounts)).1.DenyList.entries =
      [(1, { HitNum := 5, ChooseTime := 0, Deny := false }),
        (2, { HitNum := 5, ChooseTime := 0, Deny := false })] ∧
    (newWarmup.UpdateDenyListTimes (some scenarioCandidates) (some scenarioHitCounts)
        12).DenyList.entries =
      [(1, { HitNum := 5, ChooseTime := 11, Deny := true }),
        (2, { HitNum := 5, ChooseTime := 11, Deny := true })] ∧
    ((newWarmup.UpdateDenyListTimes (some scenarioCandidates) (some scenarioHitCounts)
        12).DenyCheck (some scenarioCandidates) (some scenarioHitCounts)).ret = 2 ∧
    (((newWarmup.UpdateDenyListTimes (some scenarioCandidates) (some scenarioHitCounts)
        12).DenyCheck (some scenarioCandidates) (some scenarioHitCounts)).tmpBBSet.map
          GoMap.entries) = some [(1, false), (2, false)] := by
  decide

theorem UpdateDenyList_len (w : Warmup) (bbs : GoMap Nat Bool) (hits : GoMap Nat Nat) :
    (w.UpdateDenyList (some bbs) (some hits)).1.DenyList.len =
      w.DenyList.len + (admitted w.DenyList bbs hits).length := by
  rw [GoMap.len_eq_keys, UpdateDenyList_keys, List.length_append, ← GoMap.len_eq_keys]

theorem admitted_empty (dl : GoMap Nat Info) (hits : GoMap Nat Nat) :
    admitted dl GoMap.empty hits = [] := by
  simp [admitted, GoMap.empty]

theorem wideMap_update_len (n : Nat) (w : Warmup) (v : Info) (hw : w.DenyList = wideMap n v) :
    (w.UpdateDenyList (some GoMap.empty) (some GoMap.empty)).1.DenyList.len = n := by
  rw [UpdateDenyList_len, admitted_empty, hw, wideMap_len, List.length_nil, Nat.add_zero]

/-- C9 (counterexample). A deny list with `2^32` entries, no candidates and no
hit counts (both maps non-nil): `UpdateDenyList` returns `0`, while the deny
list has `2^32` entries after the call, as it had before. -/
theorem UpdateDenyList_size_wraps :
    (Warmup.UpdateDenyList
      { UnderCoverBBSet := none
        DenyList := wideMap (2 ^ 32) { HitNum := 0, ChooseTime := 0, Deny := false } }
      (some GoMap.empty) (some GoMap.empty)).2 = 0 ∧
    (Warmup.UpdateDenyList
      { UnderCoverBBSet := none
        DenyList := wideMap (2 ^ 32) { HitNum := 0, ChooseTime := 0, Deny := false } }
      (some GoMap.empty) (some GoMap.empty)).1.DenyList.len = 2 ^ 32 ∧
    (wideMap (2 ^ 32) ({ HitNum := 0, ChooseTime := 0, Deny := false } : Info)).len =
      2 ^ 32 := by
  have hlen := wideMap_update_len (2 ^ 32)
    { UnderCoverBBSet := none
      DenyList := wideMap (2 ^ 32) { HitNum := 0, ChooseTime := 0, Deny := false } }
    { HitNum := 0, ChooseTime := 0, Deny := false } rfl
  refine ⟨?_, hlen, wideMap_len _ _⟩
  rw [UpdateDenyList_ret, hlen]
  rfl

/-- C9 (amended). With non-nil `tmpBBSet` and `pcHitMap`, `UpdateDenyList`
returns the number of entries of the deny list after the call modulo `2^32`
(that number itself, which is then not below the size before, when it is below
`2^32`); the number after the call is the number before plus the number of
addresses admitted by the call; the keys after the call are the keys before
followed by the admitted addresses, so no entry is removed. With a nil
`tmpBBSet` or `pcHitMap` it returns `0` and leaves the receiver as it was. -/
theorem UpdateDenyList_size_mod (w : Warmup) (bbs : GoMap Nat Bool) (hits : GoMap Nat Nat) :
    (w.UpdateDenyList (some bbs) (some hits)).2 =
      (w.UpdateDenyList (some bbs) (some hits)).1.DenyList.len % 2 ^ 32 ∧
    ((w.UpdateDenyList (some bbs) (some hits)).1.DenyList.len < 2 ^ 32 →
      (w.UpdateDenyList (some bbs) (some hits)).2 =
        (w.UpdateDenyList (some bbs) (some hits)).1.DenyList.len ∧
      w.DenyList.len ≤ (w.UpdateDenyList (some bbs) (some hits)).2) ∧
    (w.UpdateDenyList (some bbs) (some hits)).1.DenyList.len =
      w.DenyList.len + (admitted w.DenyList bbs hits).length ∧
    (w.UpdateDenyList (some bbs) (some hits)).1.DenyList.keys =
      w.DenyList.keys ++ admitted w.DenyList bbs hits ∧
    (∀ k, k ∈ w.DenyList.keys →
      k ∈ (w.UpdateDenyList (some bbs) (some hits)).1.DenyList.keys) ∧
    (∀ c : Option (GoMap Nat Bool), w.UpdateDenyList c none = (w, 0)) ∧
    (∀ h : Option (GoMap Nat Nat), w.UpdateDenyList none h = (w, 0)) := by
  have hlen := UpdateDenyList_len w bbs hits
  have hkeys := UpdateDenyList_keys w bbs hits
  refine ⟨rfl, ?_, hlen, hkeys, ?_, ?_, ?_⟩
  · intro hlt
    have e : (w.UpdateDenyList (some bbs) (some hits)).2 =
        (w.UpdateDenyList (some bbs) (some hits)).1.DenyList.len := by
      rw [UpdateDenyList_ret, u32, Nat.mod_eq_of_lt hlt]
    refine ⟨e, ?_⟩
    rw [e, hlen]
    exact Nat.le_add_right _ _
  · intro k hk
    rw [hkeys]
    exact List.mem_append_left _ hk
  · intro c
    cases c <;> rfl
  · intro h
    rfl

theorem UpdateDenyList_admits_nothing_again (w : Warmup) (bbs : GoMap Nat Bool)
    (hits : GoMap Nat Nat) :
    admitted (w.UpdateDenyList (some bbs) (some hits)).1.DenyList bbs hits = [] := by
  unfold admitted
  rw [List.map_eq_nil_iff, List.filter_eq_nil_iff]
  intro e he hadm
  obtain ⟨k, b⟩ := e
  simp only [admits, Bool.and_eq_true, Option.isNone_iff_eq_none] at hadm
  obtain ⟨⟨hb, hnone⟩, hsome⟩ := hadm
  have hb' : b = true := hb
  subst hb'
  have hmem : k ∈ (w.UpdateDenyList (some bbs) (some hits)).1.DenyList.keys := by
    rw [UpdateDenyList_keys]
    by_cases hw : w.DenyList.get? k = none
    · apply List.mem_append_right
      unfold admitted
      refine List.mem_map.mpr ⟨(k, true), List.mem_filter.mpr ⟨he, ?_⟩, rfl⟩
      simp [admits, hw, hsome]
    · apply List.mem_append_left
      by_contra hnot
      exact hw ((w.DenyList.get?_eq_none_iff k).mpr hnot)
  exact ((GoMap.get?_eq_none_iff _ k).mp hnone) hmem

theorem UpdateDenyList_keys_again (w : Warmup) (bbs : GoMap Nat Bool) (hits : GoMap Nat Nat) :
    ((w.UpdateDenyList (some bbs) (some hits)).1.UpdateDenyList
        (some bbs) (some hits)).1.DenyList.keys =
      (w.UpdateDenyList (some bbs) (some hits)).1.DenyList.keys := by
  rw [UpdateDenyList_keys, UpdateDenyList_admits_nothing_again, List.append_nil]

theorem UpdateDenyListTimes_keys (w : Warmup) (bbs : GoMap Nat Bool) (hits : GoMap Nat Nat)
    (n : Nat) :
    (w.UpdateDenyListTimes (some bbs) (some hits) (n + 1)).DenyList.keys =
      (w.UpdateDenyList (some bbs) (some hits)).1.DenyList.keys := by
  induction n with
  | zero => rfl
  | succ n ih =>
    have : w.UpdateDenyListTimes (some bbs) (some hits) (n + 1 + 1) =
        (((w.UpdateDenyListTimes (some bbs) (some hits) n).UpdateDenyList
          (some bbs) (some hits)).1.UpdateDenyList (some bbs) (some hits)).1 := rfl
    rw [this, UpdateDenyList_keys_again]
    exact ih

/-- C10. Idempotence of size: with non-nil `tmpBBSet` and `pcHitMap`, a second
`UpdateDenyList` call with the same arguments returns the value the first call
returned, admits nothing and leaves the tracked addresses as the first call
left them; and every further call with the same arguments returns that value
again. -/
theorem UpdateDenyList_size_idempotent (w : Warmup) (bbs : GoMap Nat Bool)
    (hits : GoMap Nat Nat) :
    ((w.UpdateDenyList (some bbs) (some hits)).1.UpdateDenyList (some bbs) (some hits)).2 =
      (w.UpdateDenyList (some bbs) (some hits)).2 ∧
    ((w.UpdateDenyList (some bbs) (some hits)).1.UpdateDenyList
        (some bbs) (some hits)).1.DenyList.keys =
      (w.UpdateDenyList (some bbs) (some hits)).1.DenyList.keys ∧
    admitted (w.UpdateDenyList (some bbs) (some hits)).1.DenyList bbs hits = [] ∧
    (∀ n, ((w.UpdateDenyListTimes (some bbs) (some hits) (n + 1)).UpdateDenyList
        (some bbs) (some hits)).2 = (w.UpdateDenyList (some bbs) (some hits)).2) := by
  refine ⟨?_, UpdateDenyList_keys_again w bbs hits,
    UpdateDenyList_admits_nothing_again w bbs hits, ?_⟩
  · rw [UpdateDenyList_ret, UpdateDenyList_ret, GoMap.len_eq_keys, GoMap.len_eq_keys,
      UpdateDenyList_keys_again]
  · intro n
    have h2 := UpdateDenyListTimes_keys w bbs hits (n + 1)
    have e : ((w.UpdateDenyListTimes (some bbs) (some hits) (n + 1)).UpdateDenyList
        (some bbs) (some hits)).1 = w.UpdateDenyListTimes (some bbs) (some hits) (n + 1 + 1) :=
      rfl
    rw [UpdateDenyList_ret, UpdateDenyList_ret, GoMap.len_eq_keys, GoMap.len_eq_keys, e, h2]

/-! ### What `DenyCheck` leaves untouched -/

theorem GoMap.mem_keys_of_get? {K V : Type} [DecidableEq K] (m : GoMap K V) (k : K) (v : V)
    (h : m.get? k = some v) : k ∈ m.keys := by
  by_contra hk
  rw [(m.get?_eq_none_iff k).mpr hk] at h
  cases h

theorem GoMap.keys_set_of_mem {K V : Type} [DecidableEq K] (m : GoMap K V) (k : K) (v : V)
    (h : k ∈ m.keys) : (m.set k v).keys = m.keys := by
  rw [GoMap.keys_set, if_pos h]

theorem DenyCheck.body_keys (hits : GoMap Nat Nat) (s : DenyCheckState) (k : Nat)
    (hk : k ∈ s.tmpBBSet.keys) :
    (DenyCheck.body hits s k).DenyList.keys = s.DenyList.keys ∧
    (DenyCheck.body hits s k).tmpBBSet.keys = s.tmpBBSet.keys := by
  unfold DenyCheck.body
  split
  · rename_i info hd
    have hdk := s.DenyList.mem_keys_of_get? k info hd
    split
    · split_ifs <;> simp [GoMap.keys_set_of_mem, hk, hdk]
    · simp
  · simp

theorem DenyCheck.loop_keys (hits : GoMap Nat Nat) (ks : List Nat) :
    ∀ s : DenyCheckState, (∀ k ∈ ks, k ∈ s.tmpBBSet.keys) →
      (ks.foldl (DenyCheck.body hits) s).DenyList.keys = s.DenyList.keys ∧
      (ks.foldl (DenyCheck.body hits) s).tmpBBSet.keys = s.tmpBBSet.keys := by
  induction ks with
  | nil => intro s _; exact ⟨rfl, rfl⟩
  | cons k t ih =>
    intro s h
    obtain ⟨b1, b2⟩ := DenyCheck.body_keys hits s k (h k (List.mem_cons_self _ _))
    obtain ⟨i1, i2⟩ := ih (DenyCheck.body hits s k)
      (fun j hj => by rw [b2]; exact h j (List.mem_cons_of_mem _ hj))
    simp only [List.foldl_cons]
    exact ⟨i1.trans b1, i2.trans b2⟩

theorem DenyCheck_keys (w : Warmup) (cands : Option (GoMap Nat Bool))
    (hits : Option (GoMap Nat Nat)) :
    keysOf (w.DenyCheck cands hits).tmpBBSet = keysOf cands ∧
    ((w.DenyCheck cands hits).tmpBBSet = none ↔ cands = none) ∧
    (w.DenyCheck cands hits).warmup.DenyList.keys = w.DenyList.keys ∧
    (w.DenyCheck cands hits).warmup.UnderCoverBBSet = w.UnderCoverBBSet := by
  cases cands with
  | none => simp [Warmup.DenyCheck]
  | some bbs =>
    cases hits with
    | none => simp [Warmup.DenyCheck]
    | some h =>
      by_cases hlen : w.DenyList.len = 0
      · simp [Warmup.DenyCheck, hlen]
      · obtain ⟨k1, k2⟩ := DenyCheck.loop_keys h bbs.keys
          { DenyList := w.DenyList, tmpBBSet := bbs, denyNum := 0 } (fun k hk => hk)
        refine ⟨?_, ?_, ?_, ?_⟩
        · simp only [Warmup.DenyCheck, hlen, if_false, keysOf]
          exact k2
        · simp [Warmup.DenyCheck, hlen]
        · simp only [Warmup.DenyCheck, hlen, if_false]
          exact k1
        · simp [Warmup.DenyCheck, hlen]

/-- The three things `DenyCheck` can do with an address `k`: release it
(a suppressed candidate whose known hit count changed), deny it (a suppressed
candidate whose known hit count is unchanged), or leave both its deny-list
entry and its flag as they were. -/
theorem DenyCheck_cases (w : Warmup) (cands : Option (GoMap Nat Bool))
    (hits : Option (GoMap Nat Nat)) (k : Nat) :
    (k ∈ keysOf cands ∧ ∃ info hitCount, w.DenyList.get? k = some info ∧ info.Deny = true ∧
      lookup hits k = some hitCount ∧ hitCount ≠ info.HitNum ∧
      (w.DenyCheck cands hits).warmup.DenyList.get? k =
        some { HitNum := hitCount, ChooseTime := 0, Deny := false } ∧
      lookup (w.DenyCheck cands hits).tmpBBSet k = some true) ∨
    (k ∈ keysOf cands ∧ stillDenied w.DenyList hits k = true ∧
      (w.DenyCheck cands hits).warmup.DenyList.get? k = w.DenyList.get? k ∧
      lookup (w.DenyCheck cands hits).tmpBBSet k = some false) ∨
    ((k ∉ keysOf cands ∨ w.DenyList.get? k = none ∨ lookup hits k = none ∨
        ∃ info, w.DenyList.get? k = some info ∧ info.Deny = false) ∧
      (w.DenyCheck cands hits).warmup.DenyList.get? k = w.DenyList.get? k ∧
      lookup (w.DenyCheck cands hits).tmpBBSet k = lookup cands k) := by
  cases cands with
  | none =>
    right; right
    exact ⟨Or.inl (by simp [keysOf]), rfl, rfl⟩
  | some bbs =>
    cases hits with
    | none =>
      right; right
      exact ⟨Or.inr (Or.inr (Or.inl rfl)), rfl, rfl⟩
    | some h =>
      by_cases hlen : w.DenyList.len = 0
      · right; right
        refine ⟨Or.inr (Or.inl (w.DenyList.get?_of_len_zero hlen k)), ?_, ?_⟩ <;>
          simp [Warmup.DenyCheck, hlen]
      · by_cases hk : k ∈ bbs.keys
        · obtain ⟨a1, a2⟩ := DenyCheck_at_key w bbs h hlen k hk
          cases hd : w.DenyList.get? k with
          | none =>
            right; right
            refine ⟨Or.inr (Or.inl rfl), ?_, ?_⟩
            · rw [a1]; simp [DenyCheck.body, hd]
            · rw [a2]; simp [DenyCheck.body, hd, lookup_some]
          | some info =>
            cases hh : h.get? k with
            | none =>
              right; right
              refine ⟨Or.inr (Or.inr (Or.inl hh)), ?_, ?_⟩
              · rw [a1]; simp [DenyCheck.body, hd, hh]
              · rw [a2]; simp [DenyCheck.body, hd, hh, lookup_some]
            | some hc =>
              by_cases h2 : info.Deny = true
              · by_cases h1 : info.HitNum = hc
                · right; left
                  refine ⟨hk, (stillDenied_eq _ _ _).mpr ⟨info, hd, h2, h1 ▸ hh⟩, ?_, ?_⟩
                  · rw [a1]; simp [DenyCheck.body, hd, hh, h1, h2]
                  · rw [a2]; simp [DenyCheck.body, hd, hh, h1, h2, GoMap.get?_set]
                · left
                  refine ⟨hk, info, hc, rfl, h2, hh, fun e => h1 e.symm, ?_, ?_⟩
                  · rw [a1]; simp [DenyCheck.body, hd, hh, h1, h2, GoMap.get?_set]
                  · rw [a2]; simp [DenyCheck.body, hd, hh, h1, h2, GoMap.get?_set]
              · right; right
                refine ⟨Or.inr (Or.inr (Or.inr ⟨info, rfl, by simpa using h2⟩)), ?_, ?_⟩
                · rw [a1]; simp [DenyCheck.body, hd, hh, h2]
                · rw [a2]; simp [DenyCheck.body, hd, hh, h2, lookup_some]
        · right; right
          have h1 := (DenyCheck.loop_spec h bbs.keys bbs.nodup
            { DenyList := w.DenyList, tmpBBSet := bbs, denyNum := 0 } 0 (by simp [u32])).1 k hk
          refine ⟨Or.inl hk, ?_, ?_⟩
          · simp only [Warmup.DenyCheck, hlen, if_false]
            exact h1.1
          · simp only [Warmup.DenyCheck, hlen, if_false, lookup_some]
            exact h1.2

theorem stillDenied_iff (dl : GoMap Nat Info) (hits : Option (GoMap Nat Nat)) (k : Nat) :
    stillDenied dl hits k = true ↔
      ∃ info, dl.get? k = some info ∧ info.Deny = true ∧ lookup hits k = some info.HitNum := by
  unfold stillDenied
  cases hd : dl.get? k with
  | none => simp
  | some info =>
    cases hh : lookup hits k with
    | none => simp
    | some hc =>
      simp only [Bool.and_eq_true, decide_eq_true_eq, Option.some.injEq, exists_eq_left']
      constructor
      · rintro ⟨h1, h2⟩
        exact ⟨h1, h2.symm⟩
      · rintro ⟨h1, h2⟩
        exact ⟨h1, h2.symm⟩

/-- C11. `DenyCheck` frame: the call adds no key to and removes no key from
`tmpBBSet` or the deny list; the flag of `k` is as before when `k` is not in
the deny list, or is not a key of `pcHitMap`, or its entry has `Deny = false`;
and a deny-list entry differs from what it was only for a key of `tmpBBSet`
that is suppressed and has a known hit count different from the recorded
`HitNum`. -/
theorem DenyCheck_frame (w : Warmup) (cands : Option (GoMap Nat Bool))
    (hits : Option (GoMap Nat Nat)) :
    keysOf (w.DenyCheck cands hits).tmpBBSet = keysOf cands ∧
    ((w.DenyCheck cands hits).tmpBBSet = none ↔ cands = none) ∧
    (w.DenyCheck cands hits).warmup.DenyList.keys = w.DenyList.keys ∧
    (∀ k, (w.DenyList.get? k = none ∨ lookup hits k = none ∨
        ∃ info, w.DenyList.get? k = some info ∧ info.Deny = false) →
      lookup (w.DenyCheck cands hits).tmpBBSet k = lookup cands k) ∧
    (∀ k, (w.DenyCheck cands hits).warmup.DenyList.get? k ≠ w.DenyList.get? k →
      k ∈ keysOf cands ∧ ∃ info hitCount, w.DenyList.get? k = some info ∧
        info.Deny = true ∧ lookup hits k = some hitCount ∧ hitCount ≠ info.HitNum) := by
  obtain ⟨k1, k2, k3, _⟩ := DenyCheck_keys w cands hits
  refine ⟨k1, k2, k3, ?_, ?_⟩
  · intro k hcond
    rcases DenyCheck_cases w cands hits k with hA | hB | hC
    · obtain ⟨_, info, hc, hd, hdeny, hh, _, _, _⟩ := hA
      rcases hcond with h | h | ⟨info', h, hf⟩
      · rw [hd] at h; cases h
      · rw [hh] at h; cases h
      · rw [hd] at h
        cases h
        rw [hdeny] at hf
        cases hf
    · obtain ⟨_, hsd, _, _⟩ := hB
      obtain ⟨info, hd, hdeny, hh⟩ := (stillDenied_iff _ _ _).mp hsd
      rcases hcond with h | h | ⟨info', h, hf⟩
      · rw [hd] at h; cases h
      · rw [hh] at h; cases h
      · rw [hd] at h
        cases h
        rw [hdeny] at hf
        cases hf
    · exact hC.2.2
  · intro k hne
    rcases DenyCheck_cases w cands hits k with hA | hB | hC
    · obtain ⟨hk, info, hc, hd, hdeny, hh, hneq, _, _⟩ := hA
      exact ⟨hk, info, hc, hd, hdeny, hh, hneq⟩
    · exact absurd hB.2.2.1 hne
    · exact absurd hC.2.1 hne

/-! ## `CheckPerCall` -/

/-- C12. `CheckPerCall`: with a nil `info`, or when `findOverlap` of the covered
addresses is empty, the map `*warmupcalls` is left exactly as it was (a nil map
stays nil, every entry is kept); otherwise the map is non-nil afterwards, a nil
map having been replaced by a new one, it binds `call` to exactly
`findOverlap(info.Cover)` and every other index is bound as before. The
receiver (deny list and published set) is as before in all cases. -/
theorem CheckPerCall_record (w : Warmup) (info : Option CallInfo) (call : Int)
    (m : Option (GoMap Int warmupCall)) :
    (w.CheckPerCall info call m).1 = w ∧
    ((info = none ∨ ∃ i, info = some i ∧ w.findOverlap i.Cover = []) →
      (w.CheckPerCall info call m).2 = m) ∧
    (∀ i, info = some i → w.findOverlap i.Cover ≠ [] →
      (w.CheckPerCall info call m).2 ≠ none ∧
      (m = none → (w.CheckPerCall info call m).2 =
        some ((GoMap.empty : GoMap Int warmupCall).set call
          { warmedBBs := w.findOverlap i.Cover })) ∧
      lookup (w.CheckPerCall info call m).2 call =
        some { warmedBBs := w.findOverlap i.Cover } ∧
      ∀ j, j ≠ call → lookup (w.CheckPerCall info call m).2 j = lookup m j) := by
  refine ⟨?_, ?_, ?_⟩
  · cases info with
    | none => rfl
    | some i =>
      simp only [Warmup.CheckPerCall]
      split <;> rfl
  · rintro (h | ⟨i, h, he⟩)
    · subst h; rfl
    · subst h
      simp [Warmup.CheckPerCall, he]
  · intro i hi hne
    subst hi
    have hlen : ¬ (w.findOverlap i.Cover).length = 0 := by
      intro e
      exact hne (List.length_eq_zero.mp e)
    simp only [Warmup.CheckPerCall, hlen, if_false]
    refine ⟨by simp, ?_, ?_, ?_⟩
    · intro hm
      subst hm
      rfl
    · simp [lookup_some, GoMap.get?_set]
    · intro j hj
      have hj' : ¬ call = j := fun e => hj e.symm
      cases m with
      | none => simp [lookup_some, lookup_none, GoMap.get?_set, hj', GoMap.get?, GoMap.empty, lookupL]
      | some mm => simp [lookup_some, GoMap.get?_set, hj']

/-! ## Published flags, stickiness, reachable states -/

/-- C15. `findOverlap` ignores the flags: two published maps with the same keys
give the same result for every covered sequence. So publishing the map that
`DenyCheck` has written to gives the same overlaps as publishing the map as it
was before, and an address that `DenyCheck` has flagged `false` is still
returned whenever it is covered. -/
theorem findOverlap_ignores_flags (w w' : Warmup) (S S' : Option (GoMap Nat Bool))
    (C : List Nat) :
    ((∀ k, k ∈ keysOf S ↔ k ∈ keysOf S') →
      (w.Update S).findOverlap C = (w'.Update S').findOverlap C) ∧
    (∀ (cands : Option (GoMap Nat Bool)) (hits : Option (GoMap Nat Nat)),
      ((w.DenyCheck cands hits).warmup.Update (w.DenyCheck cands hits).tmpBBSet).findOverlap C =
        (w.Update cands).findOverlap C ∧
      ∀ k, k ∈ keysOf cands → stillDenied w.DenyList hits k = true →
        lookup (w.DenyCheck cands hits).tmpBBSet k = some false ∧
        (k ∈ C → k ∈ ((w.DenyCheck cands hits).warmup.Update
          (w.DenyCheck cands hits).tmpBBSet).findOverlap C)) := by
  have hsame : ∀ (a b : Warmup) (T T' : Option (GoMap Nat Bool)),
      (∀ k, k ∈ keysOf T ↔ k ∈ keysOf T') →
      (a.Update T).findOverlap C = (b.Update T').findOverlap C := by
    intro a b T T' h
    rw [findOverlap_eq_filter, findOverlap_eq_filter]
    apply List.filter_congr
    intro k _
    simp only [Warmup.Update]
    exact decide_eq_decide.mpr (h k)
  refine ⟨hsame w w' S S', ?_⟩
  intro cands hits
  have hkeys := (DenyCheck_keys w cands hits).1
  have heq := hsame (w.DenyCheck cands hits).warmup w (w.DenyCheck cands hits).tmpBBSet cands
    (fun k => by rw [hkeys])
  refine ⟨heq, ?_⟩
  intro k hk hsd
  refine ⟨(DenyCheck_stillDenied_key w cands hits k hk hsd).1, ?_⟩
  intro hC
  rw [heq, findOverlap_eq_filter]
  exact List.mem_filter.mpr ⟨hC, by simpa [Warmup.Update] using hk⟩

theorem maintenance_same_hit (hits : GoMap Nat Nat) (dl : GoMap Nat Info) (k : Nat)
    (info : Info) (hh : hits.get? k = some info.HitNum) :
    (UpdateDenyList.maintenance hits dl (k, info)).get? k =
      some { HitNum := info.HitNum
             ChooseTime := u32 (info.ChooseTime + 1)
             Deny := if u32 (info.ChooseTime + 1) > 10 then true else info.Deny } := by
  simp [UpdateDenyList.maintenance, hh, GoMap.get?_set]

theorem maintenance_changed_hit (hits : GoMap Nat Nat) (dl : GoMap Nat Info) (k : Nat)
    (info : Info) (hitCount : Nat) (hh : hits.get? k = some hitCount)
    (hne : info.HitNum ≠ hitCount) :
    (UpdateDenyList.maintenance hits dl (k, info)).get? k =
      some { HitNum := hitCount, ChooseTime := 0, Deny := false } := by
  simp [UpdateDenyList.maintenance, hh, hne, GoMap.get?_set]

theorem maintenance_unknown_hit (hits : GoMap Nat Nat) (dl : GoMap Nat Info) (k : Nat)
    (info : Info) (hh : hits.get? k = none) :
    (UpdateDenyList.maintenance hits dl (k, info)).get? k = dl.get? k := by
  simp [UpdateDenyList.maintenance, hh]

/-- C16. Suppression is sticky under `UpdateDenyList`: an entry with
`Deny = true` whose hit count is not known, or is known and equal to the
recorded `HitNum`, still has `Deny = true` afterwards, for nil or non-nil
arguments; with non-nil arguments and an unchanged hit count the streak becomes
`(ChooseTime + 1) mod 2^32`, so it wraps from `2^32 - 1` to `0` while the entry
stays suppressed; and `Deny` is `false` afterwards only if the hit count is
known and differs from the recorded `HitNum`. -/
theorem UpdateDenyList_sticky (w : Warmup) (cands : Option (GoMap Nat Bool))
    (hits : Option (GoMap Nat Nat)) (k : Nat) (info : Info)
    (hk : w.DenyList.get? k = some info) (hdeny : info.Deny = true) :
    ((lookup hits k = none ∨ lookup hits k = some info.HitNum) →
      ∃ info', (w.UpdateDenyList cands hits).1.DenyList.get? k = some info' ∧
        info'.Deny = true ∧ info'.HitNum = info.HitNum) ∧
    (cands ≠ none → lookup hits k = some info.HitNum →
      (w.UpdateDenyList cands hits).1.DenyList.get? k =
        some { HitNum := info.HitNum
               ChooseTime := (info.ChooseTime + 1) % 2 ^ 32
               Deny := true }) ∧
    (cands ≠ none → lookup hits k = some info.HitNum → info.ChooseTime = 2 ^ 32 - 1 →
      (w.UpdateDenyList cands hits).1.DenyList.get? k =
        some { HitNum := info.HitNum, ChooseTime := 0, Deny := true }) ∧
    (∀ info', (w.UpdateDenyList cands hits).1.DenyList.get? k = some info' →
      info'.Deny = false →
      ∃ hitCount, lookup hits k = some hitCount ∧ hitCount ≠ info.HitNum) := by
  have hsame : cands ≠ none → lookup hits k = some info.HitNum →
      (w.UpdateDenyList cands hits).1.DenyList.get? k =
        some { HitNum := info.HitNum
               ChooseTime := (info.ChooseTime + 1) % 2 ^ 32
               Deny := true } := by
    intro hc hh
    cases cands with
    | none => exact absurd rfl hc
    | some bbs =>
      cases hits with
      | none => simp [lookup_none] at hh
      | some h =>
        rw [UpdateDenyList_tracked w bbs h k info hk, maintenance_same_hit h _ k info hh]
        simp [u32, hdeny]
  have hnil : (cands = none ∨ lookup hits k = none) →
      (w.UpdateDenyList cands hits).1.DenyList.get? k = some info := by
    intro hor
    cases cands with
    | none => exact hk
    | some bbs =>
      cases hits with
      | none => exact hk
      | some h =>
        rcases hor with hc | hh
        · cases hc
        · rw [UpdateDenyList_tracked w bbs h k info hk, maintenance_unknown_hit h _ k info hh]
          exact hk
  refine ⟨?_, hsame, ?_, ?_⟩
  · intro hor
    by_cases hc : cands = none
    · exact ⟨info, hnil (Or.inl hc), hdeny, rfl⟩
    · rcases hor with hh | hh
      · exact ⟨info, hnil (Or.inr hh), hdeny, rfl⟩
      · exact ⟨_, hsame hc hh, rfl, rfl⟩
  · intro hc hh hct
    have hz : (info.ChooseTime + 1) % 2 ^ 32 = 0 := by omega
    rw [hsame hc hh, hz]
  · intro info' hpost hfalse
    by_cases hc : cands = none
    · rw [hnil (Or.inl hc)] at hpost
      cases hpost
      rw [hdeny] at hfalse
      cases hfalse
    · cases hh : lookup hits k with
      | none =>
        rw [hnil (Or.inr hh)] at hpost
        cases hpost
        rw [hdeny] at hfalse
        cases hfalse
      | some hitCount =>
        refine ⟨hitCount, rfl, ?_⟩
        intro e
        subst e
        rw [hsame hc hh] at hpost
        cases hpost
        cases hfalse

/-- C16 (witness). The suppressed entry `1 ↦ {5, 11, true}` with the candidates
`{1: true}` and the unchanged hit count `5`. -/
theorem UpdateDenyList_sticky_witness :
    (denyOne.UpdateDenyList (some (single true)) (some (single 5))).1.DenyList.get? 1 =
      some { HitNum := 5, ChooseTime := 12, Deny := true } :=
  (UpdateDenyList_sticky denyOne (some (single true)) (some (single 5)) 1
    { HitNum := 5, ChooseTime := 11, Deny := true } (by decide) rfl).2.1
    (by simp) (by decide)

theorem CheckPerCall_unchanged (w : Warmup) (info : Option CallInfo) (call : Int)
    (m : Option (GoMap Int warmupCall)) : (w.CheckPerCall info call m).1 = w := by
  cases info with
  | none => rfl
  | some i =>
    simp only [Warmup.CheckPerCall]
    split <;> rfl

theorem DenyCheck_entry_cases (w : Warmup) (cands : Option (GoMap Nat Bool))
    (hits : Option (GoMap Nat Nat)) (k : Nat) :
    (w.DenyCheck cands hits).warmup.DenyList.get? k = w.DenyList.get? k ∨
    ∃ hitCount, (w.DenyCheck cands hits).warmup.DenyList.get? k =
      some { HitNum := hitCount, ChooseTime := 0, Deny := false } := by
  rcases DenyCheck_cases w cands hits k with hA | hB | hC
  · obtain ⟨_, info, hc, _, _, _, _, hpost, _⟩ := hA
    exact Or.inr ⟨hc, hpost⟩
  · exact Or.inl hB.2.2.1
  · exact Or.inl hC.2.1

theorem UpdateDenyList_entry_cases (w : Warmup) (cands : Option (GoMap Nat Bool))
    (hits : Option (GoMap Nat Nat)) (k : Nat) :
    (w.UpdateDenyList cands hits).1.DenyList.get? k = w.DenyList.get? k ∨
    (∃ hitCount, (w.UpdateDenyList cands hits).1.DenyList.get? k =
      some { HitNum := hitCount, ChooseTime := 0, Deny := false }) ∨
    ∃ info, w.DenyList.get? k = some info ∧
      (w.UpdateDenyList cands hits).1.DenyList.get? k =
        some { HitNum := info.HitNum
               ChooseTime := u32 (info.ChooseTime + 1)
               Deny := if u32 (info.ChooseTime + 1) > 10 then true else info.Deny } := by
  cases cands with
  | none => exact Or.inl rfl
  | some bbs =>
    cases hits with
    | none => exact Or.inl rfl
    | some h =>
      cases hd : w.DenyList.get? k with
      | none =>
        rw [UpdateDenyList_untracked w bbs h k hd]
        by_cases hb : bbs.get? k = some true
        · cases hh : h.get? k with
          | none => left; simp [hh]
          | some hc => right; left; exact ⟨hc, by simp [hb, hh]⟩
        · left; simp [hb]
      | some info =>
        rw [UpdateDenyList_tracked w bbs h k info hd]
        cases hh : h.get? k with
        | none =>
          left
          rw [maintenance_unknown_hit h _ k info hh, hd]
        | some hc =>
          by_cases he : info.HitNum = hc
          · right; right
            exact ⟨info, rfl, maintenance_same_hit h _ k info (he ▸ hh)⟩
          · right; left
            exact ⟨hc, maintenance_changed_hit h _ k info hc hh he⟩

theorem Reachable_times (w : Warmup) (cands : Option (GoMap Nat Bool))
    (hits : Option (GoMap Nat Nat)) (hr : Reachable w) (n : Nat) :
    Reachable (w.UpdateDenyListTimes cands hits n) := by
  induction n with
  | zero => exact hr
  | succ n ih => exact Reachable.updateDenyList _ cands hits ih

/-- C17. Reachable-state invariant: in every state reachable from `newWarmup`
by calls of `DenyCheck`, `UpdateDenyList`, `Update` and `CheckPerCall` with any
arguments, a deny-list entry with `ChooseTime > 10` has `Deny = true`. -/
theorem Reachable_streak_suppressed (w : Warmup) (hr : Reachable w) (k : Nat) (info : Info)
    (hk : w.DenyList.get? k = some info) (hct : 10 < info.ChooseTime) :
    info.Deny = true := by
  have key : ∀ k info, w.DenyList.get? k = some info → 10 < info.ChooseTime →
      info.Deny = true := by
    clear hk hct info k
    induction hr with
    | new =>
      intro k info hk
      simp [newWarmup, GoMap.get?, GoMap.empty, lookupL] at hk
    | denyCheck w c h _ ih =>
      intro k info hk hct
      rcases DenyCheck_entry_cases w c h k with e | ⟨hc, e⟩
      · rw [e] at hk
        exact ih k info hk hct
      · rw [e] at hk
        cases hk
        simp at hct
    | updateDenyList w c h _ ih =>
      intro k info hk hct
      rcases UpdateDenyList_entry_cases w c h k with e | ⟨hc, e⟩ | ⟨old, hold, e⟩
      · rw [e] at hk
        exact ih k info hk hct
      · rw [e] at hk
        cases hk
        simp at hct
      · rw [e] at hk
        cases hk
        simp only at hct
        simp [hct]
    | update w c _ ih => exact ih
    | checkPerCall w i call m _ ih =>
      rw [(CheckPerCall_unchanged w i call m)]
      exact ih
  exact key k info hk hct

/-- C17 (witness). The state after 12 `UpdateDenyList` calls of the scenario,
where the entry of `1` is `{5, 11, true}`. -/
theorem Reachable_streak_suppressed_witness :
    Reachable
      (newWarmup.UpdateDenyListTimes (some scenarioCandidates) (some scenarioHitCounts) 12) ∧
    (newWarmup.UpdateDenyListTimes (some scenarioCandidates) (some scenarioHitCounts)
      12).DenyList.get? 1 = some { HitNum := 5, ChooseTime := 11, Deny := true } ∧
    ({ HitNum := 5, ChooseTime := 11, Deny := true } : Info).Deny = true :=
  ⟨Reachable_times newWarmup _ _ Reachable.new 12, by decide,
    Reachable_streak_suppressed
      (newWarmup.UpdateDenyListTimes (some scenarioCandidates) (some scenarioHitCounts) 12)
      (Reachable_times newWarmup _ _ Reachable.new 12) 1
      { HitNum := 5, ChooseTime := 11, Deny := true } (by decide) (by decide)⟩

/-! ## Idempotence and visiting order of `DenyCheck` -/

theorem setL_same {K V : Type} [DecidableEq K] (l : List (K × V)) (k : K) (v : V)
    (h : lookupL l k = some v) : setL l k v = l := by
  induction l with
  | nil => simp [lookupL] at h
  | cons p t ih =>
    obtain ⟨k', v'⟩ := p
    by_cases hk : k' = k
    · simp [lookupL, hk] at h
      simp [setL, hk, h]
    · simp [lookupL, hk] at h
      simp [setL, hk, ih h]

theorem GoMap.set_same {K V : Type} [DecidableEq K] (m : GoMap K V) (k : K) (v : V)
    (h : m.get? k = some v) : m.set k v = m :=
  GoMap.ext_entries _ _ (setL_same m.entries k v h)

/-- A turn of the loop of `DenyCheck` changes neither map when every
suppressed address with a known hit count has that hit count recorded and is
flagged `false`. -/
theorem DenyCheck.body_settled (hits : GoMap Nat Nat) (s : DenyCheckState) (k : Nat)
    (hst : ∀ info hitCount, s.DenyList.get? k = some info → hits.get? k = some hitCount →
      info.Deny = true → info.HitNum = hitCount ∧ s.tmpBBSet.get? k = some false) :
    (DenyCheck.body hits s k).DenyList = s.DenyList ∧
    (DenyCheck.body hits s k).tmpBBSet = s.tmpBBSet := by
  unfold DenyCheck.body
  split
  · rename_i info hd
    split
    · rename_i hc hh
      by_cases h2 : info.Deny = true
      · obtain ⟨h1, hf⟩ := hst info hc hd hh h2
        simp [h1, h2, GoMap.set_same _ _ _ hf]
      · simp [h2]
    · simp
  · simp

theorem DenyCheck.loop_settled (hits : GoMap Nat Nat) (ks : List Nat) :
    ∀ s : DenyCheckState,
      (∀ k ∈ ks, ∀ info hitCount, s.DenyList.get? k = some info →
        hits.get? k = some hitCount → info.Deny = true →
        info.HitNum = hitCount ∧ s.tmpBBSet.get? k = some false) →
      (ks.foldl (DenyCheck.body hits) s).DenyList = s.DenyList ∧
      (ks.foldl (DenyCheck.body hits) s).tmpBBSet = s.tmpBBSet := by
  induction ks with
  | nil => intro s _; exact ⟨rfl, rfl⟩
  | cons k t ih =>
    intro s h
    obtain ⟨b1, b2⟩ := DenyCheck.body_settled hits s k (h k (List.mem_cons_self _ _))
    obtain ⟨i1, i2⟩ := ih (DenyCheck.body hits s k) (fun j hj => by
      rw [b1, b2]
      exact h j (List.mem_cons_of_mem _ hj))
    simp only [List.foldl_cons]
    exact ⟨i1.trans b1, i2.trans b2⟩

/-- After `DenyCheck`, every suppressed address with a known hit count has that
hit count recorded and, when it is a candidate, is flagged `false`. -/
theorem DenyCheck_settles (w : Warmup) (cands : Option (GoMap Nat Bool))
    (hits : Option (GoMap Nat Nat)) (k : Nat) (hk : k ∈ keysOf cands) (info : Info)
    (hitCount : Nat) (hd : (w.DenyCheck cands hits).warmup.DenyList.get? k = some info)
    (hh : lookup hits k = some hitCount) (hdeny : info.Deny = true) :
    info.HitNum = hitCount ∧ lookup (w.DenyCheck cands hits).tmpBBSet k = some false := by
  rcases DenyCheck_cases w cands hits k with hA | hB | hC
  · obtain ⟨_, _, _, _, _, _, _, hpost, _⟩ := hA
    rw [hpost] at hd
    cases hd
    cases hdeny
  · obtain ⟨_, hsd, hsame, hflag⟩ := hB
    obtain ⟨info0, h0, _, hh0⟩ := (stillDenied_iff _ _ _).mp hsd
    rw [hsame, h0] at hd
    cases hd
    rw [hh0] at hh
    cases hh
    exact ⟨rfl, hflag⟩
  · obtain ⟨hcond, hsame, _⟩ := hC
    rw [hsame] at hd
    rcases hcond with h | h | h | ⟨info0, h0, hf⟩
    · exact absurd hk h
    · rw [hd] at h; cases h
    · rw [hh] at h; cases h
    · rw [hd] at h0
      cases h0
      rw [hdeny] at hf
      cases hf

theorem DenyCheck_stillDenied_after (w : Warmup) (cands : Option (GoMap Nat Bool))
    (hits : Option (GoMap Nat Nat)) (k : Nat) :
    stillDenied (w.DenyCheck cands hits).warmup.DenyList hits k =
      stillDenied w.DenyList hits k := by
  rcases DenyCheck_cases w cands hits k with hA | hB | hC
  · obtain ⟨_, info, hc, hd, _, hh, hne, hpost, _⟩ := hA
    have hne' : ¬ info.HitNum = hc := fun e => hne e.symm
    simp [stillDenied, hpost, hd, hh, hne']
  · exact stillDenied_congr _ _ _ _ hB.2.2.1
  · exact stillDenied_congr _ _ _ _ hC.2.1

/-- C18. `DenyCheck` is idempotent: a second call with the same `pcHitMap`, on
the `tmpBBSet` and the receiver left by the first call, returns the count the
first call returned and leaves `tmpBBSet` and the receiver as the first call
left them. -/
theorem DenyCheck_idempotent (w : Warmup) (cands : Option (GoMap Nat Bool))
    (hits : Option (GoMap Nat Nat)) :
    ((w.DenyCheck cands hits).warmup.DenyCheck (w.DenyCheck cands hits).tmpBBSet hits).ret =
      (w.DenyCheck cands hits).ret ∧
    ((w.DenyCheck cands hits).warmup.DenyCheck (w.DenyCheck cands hits).tmpBBSet hits).tmpBBSet =
      (w.DenyCheck cands hits).tmpBBSet ∧
    ((w.DenyCheck cands hits).warmup.DenyCheck (w.DenyCheck cands hits).tmpBBSet hits).warmup =
      (w.DenyCheck cands hits).warmup := by
  have hkeys := (DenyCheck_keys w cands hits).1
  have hret : ((w.DenyCheck cands hits).warmup.DenyCheck
      (w.DenyCheck cands hits).tmpBBSet hits).ret = (w.DenyCheck cands hits).ret := by
    rw [DenyCheck_ret, DenyCheck_ret w, hkeys]
    congr 2
    apply List.filter_congr
    intro k _
    exact DenyCheck_stillDenied_after w cands hits k
  refine ⟨hret, ?_⟩
  have hset := DenyCheck_settles w cands hits
  generalize w.DenyCheck cands hits = r at hkeys hset ⊢
  obtain ⟨w1, t1, n1⟩ := r
  cases t1 with
  | none => exact ⟨rfl, rfl⟩
  | some bbs =>
    cases hits with
    | none => exact ⟨rfl, rfl⟩
    | some h =>
      by_cases hlen : w1.DenyList.len = 0
      · simp [Warmup.DenyCheck, hlen]
      · have hst := DenyCheck.loop_settled h bbs.keys
          { DenyList := w1.DenyList, tmpBBSet := bbs, denyNum := 0 } (by
            intro k hk info hc hd hh hdeny
            have hk' : k ∈ keysOf cands := by
              rw [← hkeys]
              exact hk
            exact hset k hk' info hc hd hh hdeny)
        simp only [Warmup.DenyCheck, hlen, if_false]
        rw [hst.1, hst.2]
        exact ⟨rfl, rfl⟩

theorem GoMap.get?_perm {K V : Type} [DecidableEq K] (m m' : GoMap K V)
    (h : m.entries.Perm m'.entries) (k : K) : m.get? k = m'.get? k := by
  cases hm : m.get? k with
  | none =>
    have hk : k ∉ m'.keys := by
      intro hmem
      exact (m.get?_eq_none_iff k).mp hm ((h.map Prod.fst).mem_iff.mpr hmem)
    exact ((m'.get?_eq_none_iff k).mpr hk).symm
  | some v =>
    exact (m'.get?_of_mem k v (h.mem_iff.mp (m.mem_of_get? k v hm))).symm

theorem DenyCheck_perm_key (w w' : Warmup) (bbs bbs' : GoMap Nat Bool)
    (hits : Option (GoMap Nat Nat))
    (hd : w.DenyList.entries.Perm w'.DenyList.entries)
    (hb : bbs.entries.Perm bbs'.entries) (k : Nat) :
    (w.DenyCheck (some bbs) hits).warmup.DenyList.get? k =
      (w'.DenyCheck (some bbs') hits).warmup.DenyList.get? k ∧
    lookup (w.DenyCheck (some bbs) hits).tmpBBSet k =
      lookup (w'.DenyCheck (some bbs') hits).tmpBBSet k := by
  have hdk := GoMap.get?_perm _ _ hd k
  have hbk := GoMap.get?_perm _ _ hb k
  cases hits with
  | none => exact ⟨hdk, hbk⟩
  | some h =>
    have hleq : w.DenyList.len = w'.DenyList.len := hd.length_eq
    by_cases hlen : w.DenyList.len = 0
    · have hlen' : w'.DenyList.len = 0 := hleq ▸ hlen
      simp only [Warmup.DenyCheck, hlen, hlen', if_true, lookup_some]
      exact ⟨hdk, hbk⟩
    · have hlen' : ¬ w'.DenyList.len = 0 := hleq ▸ hlen
      by_cases hk : k ∈ bbs.keys
      · have hk' : k ∈ bbs'.keys := (hb.map Prod.fst).mem_iff.mp hk
        obtain ⟨a1, a2⟩ := DenyCheck_at_key w bbs h hlen k hk
        obtain ⟨b1, b2⟩ := DenyCheck_at_key w' bbs' h hlen' k hk'
        obtain ⟨c1, c2⟩ := DenyCheck.body_congr h
          { DenyList := w'.DenyList, tmpBBSet := bbs', denyNum := 0 }
          { DenyList := w.DenyList, tmpBBSet := bbs, denyNum := 0 } k hdk hbk
        exact ⟨a1.trans (c1.trans b1.symm), a2.trans (c2.trans b2.symm)⟩
      · have hk' : k ∉ bbs'.keys := fun e => hk ((hb.map Prod.fst).mem_iff.mpr e)
        have h1 := (DenyCheck.loop_spec h bbs.keys bbs.nodup
          { DenyList := w.DenyList, tmpBBSet := bbs, denyNum := 0 } 0 (by simp [u32])).1 k hk
        have h2 := (DenyCheck.loop_spec h bbs'.keys bbs'.nodup
          { DenyList := w'.DenyList, tmpBBSet := bbs', denyNum := 0 } 0 (by simp [u32])).1 k hk'
        simp only [Warmup.DenyCheck, hlen, hlen', if_false, lookup_some]
        exact ⟨h1.1.trans (hdk.trans h2.1.symm), h1.2.trans (hbk.trans h2.2.symm)⟩

theorem DenyCheck_perm_ret (w w' : Warmup) (bbs bbs' : GoMap Nat Bool)
    (hits : Option (GoMap Nat Nat))
    (hd : w.DenyList.entries.Perm w'.DenyList.entries)
    (hb : bbs.entries.Perm bbs'.entries) :
    (w.DenyCheck (some bbs) hits).ret = (w'.DenyCheck (some bbs') hits).ret := by
  have hp : stillDenied w.DenyList hits = stillDenied w'.DenyList hits := by
    funext k
    exact stillDenied_congr _ _ _ _ (GoMap.get?_perm _ _ hd k)
  rw [DenyCheck_ret, DenyCheck_ret, hp]
  congr 1
  exact ((hb.map Prod.fst).filter _).length_eq

theorem UpdateDenyList_perm_key (w w' : Warmup) (bbs bbs' : GoMap Nat Bool)
    (hits : Option (GoMap Nat Nat))
    (hd : w.DenyList.entries.Perm w'.DenyList.entries)
    (hb : bbs.entries.Perm bbs'.entries) (k : Nat) :
    (w.UpdateDenyList (some bbs) hits).1.DenyList.get? k =
      (w'.UpdateDenyList (some bbs') hits).1.DenyList.get? k := by
  have hdk := GoMap.get?_perm _ _ hd k
  have hbk := GoMap.get?_perm _ _ hb k
  cases hits with
  | none => exact hdk
  | some h =>
    cases hk : w.DenyList.get? k with
    | none =>
      rw [UpdateDenyList_untracked w bbs h k hk,
        UpdateDenyList_untracked w' bbs' h k (hdk ▸ hk), hbk]
    | some info =>
      rw [UpdateDenyList_tracked w bbs h k info hk,
        UpdateDenyList_tracked w' bbs' h k info (hdk ▸ hk)]
      exact maintenance_congr h w'.DenyList w.DenyList (k, info) hdk

theorem UpdateDenyList_perm_ret (w w' : Warmup) (bbs bbs' : GoMap Nat Bool)
    (hits : Option (GoMap Nat Nat))
    (hd : w.DenyList.entries.Perm w'.DenyList.entries)
    (hb : bbs.entries.Perm bbs'.entries) :
    (w.UpdateDenyList (some bbs) hits).2 = (w'.UpdateDenyList (some bbs') hits).2 := by
  cases hits with
  | none => rfl
  | some h =>
    have hp : admits w.DenyList h = admits w'.DenyList h := by
      funext e
      exact admits_congr h _ _ e (GoMap.get?_perm _ _ hd e.1)
    have hl : w.DenyList.len = w'.DenyList.len := hd.length_eq
    rw [UpdateDenyList_ret, UpdateDenyList_ret, UpdateDenyList_len, UpdateDenyList_len, hl]
    congr 2
    unfold admitted
    rw [List.length_map, List.length_map, hp]
    exact (hb.filter _).length_eq

/-- C19. Independence of the visiting order: when the pairs of `tmpBBSet` and
of the deny list are visited in another order (the lists of pairs are
permutations), `DenyCheck` returns the same count and leaves the same flag and
the same deny-list entry for every address, and `UpdateDenyList` returns the
same size and leaves the same deny-list entry for every address. -/
theorem visiting_order_independent (w w' : Warmup) (bbs bbs' : GoMap Nat Bool)
    (hits : Option (GoMap Nat Nat))
    (hd : w.DenyList.entries.Perm w'.DenyList.entries)
    (hb : bbs.entries.Perm bbs'.entries) :
    (w.DenyCheck (some bbs) hits).ret = (w'.DenyCheck (some bbs') hits).ret ∧
    (∀ k, lookup (w.DenyCheck (some bbs) hits).tmpBBSet k =
      lookup (w'.DenyCheck (some bbs') hits).tmpBBSet k) ∧
    (∀ k, (w.DenyCheck (some bbs) hits).warmup.DenyList.get? k =
      (w'.DenyCheck (some bbs') hits).warmup.DenyList.get? k) ∧
    (w.UpdateDenyList (some bbs) hits).2 = (w'.UpdateDenyList (some bbs') hits).2 ∧
    (∀ k, (w.UpdateDenyList (some bbs) hits).1.DenyList.get? k =
      (w'.UpdateDenyList (some bbs') hits).1.DenyList.get? k) :=
  ⟨DenyCheck_perm_ret w w' bbs bbs' hits hd hb,
    fun k => (DenyCheck_perm_key w w' bbs bbs' hits hd hb k).2,
    fun k => (DenyCheck_perm_key w w' bbs bbs' hits hd hb k).1,
    UpdateDenyList_perm_ret w w' bbs bbs' hits hd hb,
    fun k => UpdateDenyList_perm_key w w' bbs bbs' hits hd hb k⟩

/-- C19 (witness). The candidates `{1: true, 2: true}` visited as `1, 2` and as
`2, 1`, and the deny list `{1: {5, 11, true}, 2: {5, 11, true}}` visited as
`1, 2` and as `2, 1`. -/
theorem visiting_order_independent_witness :
    (twoDenied.DenyCheck (some scenarioCandidates) (some scenarioHitCounts)).ret =
      (twoDeniedSwapped.DenyCheck (some scenarioCandidatesSwapped)
        (some scenarioHitCounts)).ret ∧
    (∀ k, lookup (twoDenied.DenyCheck (some scenarioCandidates)
        (some scenarioHitCounts)).tmpBBSet k =
      lookup (twoDeniedSwapped.DenyCheck (some scenarioCandidatesSwapped)
        (some scenarioHitCounts)).tmpBBSet k) ∧
    (∀ k, (twoDenied.DenyCheck (some scenarioCandidates)
        (some scenarioHitCounts)).warmup.DenyList.get? k =
      (twoDeniedSwapped.DenyCheck (some scenarioCandidatesSwapped)
        (some scenarioHitCounts)).warmup.DenyList.get? k) ∧
    (twoDenied.UpdateDenyList (some scenarioCandidates) (some scenarioHitCounts)).2 =
      (twoDeniedSwapped.UpdateDenyList (some scenarioCandidatesSwapped)
        (some scenarioHitCounts)).2 ∧
    (∀ k, (twoDenied.UpdateDenyList (some scenarioCandidates)
        (some scenarioHitCounts)).1.DenyList.get? k =
      (twoDeniedSwapped.UpdateDenyList (some scenarioCandidatesSwapped)
        (some scenarioHitCounts)).1.DenyList.get? k) :=
  visiting_order_independent twoDenied twoDeniedSwapped scenarioCandidates
    scenarioCandidatesSwapped (some scenarioHitCounts)
    (List.Perm.swap _ _ _) (List.Perm.swap _ _ _)

/-! ## The methods with their run-time failures -/

theorem foldlM_ok {σ τ α : Type} (f : σ → α → Except Panic σ) (g : τ → α → τ) (emb : τ → σ)
    (h : ∀ t a, f (emb t) a = .ok (emb (g t a))) (l : List α) :
    ∀ t, l.foldlM f (emb t) = .ok (emb (l.foldl g t)) := by
  induction l with
  | nil => intro t; rfl
  | cons a l ih =>
    intro t
    rw [List.foldlM_cons, h t a, List.foldl_cons, ← ih (g t a)]
    rfl

theorem RawDenyCheck.body_ok (hits : GoMap Nat Nat) (s : DenyCheckState) (k : Nat) :
    RawDenyCheck.body (some hits)
        { DenyList := some s.DenyList, tmpBBSet := some s.tmpBBSet, denyNum := s.denyNum } k =
      .ok { DenyList := some (DenyCheck.body hits s k).DenyList
            tmpBBSet := some (DenyCheck.body hits s k).tmpBBSet
            denyNum := (DenyCheck.body hits s k).denyNum } := by
  unfold RawDenyCheck.body DenyCheck.body
  simp only [lookup_some]
  cases hd : s.DenyList.get? k with
  | none => rfl
  | some info =>
    cases hh : hits.get? k with
    | none => rfl
    | some hc =>
      by_cases h2 : info.Deny = true
      · by_cases h1 : info.HitNum = hc
        · simp only [h1, h2, and_self, if_true]
          rfl
        · simp only [h1, h2, false_and, if_false, if_true]
          rfl
      · have h2' : info.Deny = false := by simpa using h2
        simp only [h2', Bool.false_eq_true, and_false, if_false]
        rfl

theorem RawWarmup.DenyCheck_ok (w : Warmup) (cands : Option (GoMap Nat Bool))
    (hits : Option (GoMap Nat Nat)) :
    w.toRaw.DenyCheck cands hits =
      .ok { warmup := (w.DenyCheck cands hits).warmup.toRaw
            tmpBBSet := (w.DenyCheck cands hits).tmpBBSet
            pcHitMap := hits
            ret := (w.DenyCheck cands hits).ret } := by
  cases cands with
  | none => rfl
  | some bbs =>
    cases hits with
    | none => rfl
    | some h =>
      by_cases hlen : w.DenyList.len = 0
      · simp [RawWarmup.DenyCheck, Warmup.DenyCheck, Warmup.toRaw, lenOf, hlen]
        rfl
      · have hfold := foldlM_ok (RawDenyCheck.body (some h)) (DenyCheck.body h)
          (fun s : DenyCheckState =>
            ({ DenyList := some s.DenyList, tmpBBSet := some s.tmpBBSet,
               denyNum := s.denyNum } : RawDenyCheckState))
          (RawDenyCheck.body_ok h) bbs.keys
          { DenyList := w.DenyList, tmpBBSet := bbs, denyNum := 0 }
        simp only [RawWarmup.DenyCheck, Warmup.DenyCheck, Warmup.toRaw, lenOf, hlen,
          Option.isNone_some, Bool.false_eq_true, or_self, if_false, keysOf]
        rw [hfold]
        rfl

theorem RawUpdateDenyList.maintenance_ok (hits : GoMap Nat Nat) (dl : GoMap Nat Info)
    (e : Nat × Info) :
    RawUpdateDenyList.maintenance (some hits) (some dl) e =
      .ok (some (UpdateDenyList.maintenance hits dl e)) := by
  unfold RawUpdateDenyList.maintenance UpdateDenyList.maintenance
  simp only [lookup_some]
  cases hh : hits.get? e.1 with
  | none => rfl
  | some hc =>
    by_cases h1 : e.2.HitNum = hc
    · simp only [h1, if_true]
      rfl
    · simp only [h1, if_false]
      rfl

theorem RawUpdateDenyList.admission_ok (hits : GoMap Nat Nat) (dl : GoMap Nat Info)
    (e : Nat × Bool) :
    RawUpdateDenyList.admission (some hits) (some dl) e =
      .ok (some (UpdateDenyList.admission hits dl e)) := by
  unfold RawUpdateDenyList.admission UpdateDenyList.admission
  simp only [lookup_some]
  by_cases hc : dl.get? e.1 = none ∧ e.2 = true
  · simp only [hc, and_self, if_true]
    cases hh : hits.get? e.1 with
    | none => rfl
    | some hc => rfl
  · simp only [hc, if_false]
    rfl

theorem RawWarmup.UpdateDenyList_ok (w : Warmup) (cands : Option (GoMap Nat Bool))
    (hits : Option (GoMap Nat Nat)) :
    w.toRaw.UpdateDenyList cands hits =
      .ok { warmup := (w.UpdateDenyList cands hits).1.toRaw
            tmpBBSet := cands
            pcHitMap := hits
            ret := (w.UpdateDenyList cands hits).2 } := by
  cases cands with
  | none => rfl
  | some bbs =>
    cases hits with
    | none => rfl
    | some h =>
      have h1 := foldlM_ok (RawUpdateDenyList.maintenance (some h))
        (UpdateDenyList.maintenance h) (fun dl : GoMap Nat Info => some dl)
        (RawUpdateDenyList.maintenance_ok h) w.DenyList.entries w.DenyList
      have h2 := foldlM_ok (RawUpdateDenyList.admission (some h))
        (UpdateDenyList.admission h) (fun dl : GoMap Nat Info => some dl)
        (RawUpdateDenyList.admission_ok h) bbs.entries
        (w.DenyList.entries.foldl (UpdateDenyList.maintenance h) w.DenyList)
      simp only [RawWarmup.UpdateDenyList, Warmup.UpdateDenyList, Warmup.toRaw, entriesOf,
        Option.isNone_some, Bool.false_eq_true, or_self, if_false]
      rw [h1]
      simp only [bind, Except.bind]
      rw [h2]
      rfl

theorem RawWarmup.Update_ok (w : Warmup) (cands : Option (GoMap Nat Bool)) :
    w.toRaw.Update cands = (w.Update cands).toRaw := rfl

/-- A receiver that `newWarmup` did not make can fail: on `&Warmup{}` the type
assertion of `findOverlap` and the admission of `UpdateDenyList` panic. -/
theorem RawWarmup.zero_panics :
    RawWarmup.zero.findOverlap [1] = .error Panic.nilInterface ∧
    (∃ e, RawWarmup.zero.UpdateDenyList (some (single true)) (some (single 5)) = .error e) :=
  ⟨rfl, Panic.assignNilMap, rfl⟩

/-- C20. `UpdateDenyList` frame: whenever the call returns, the caller's
`tmpBBSet` and `pcHitMap` and the published set are exactly as they were, only
the deny list can differ; on a receiver made by `newWarmup` it does return. Of
the two deny-list methods only `DenyCheck` writes to `tmpBBSet`: it turns the
flag of a suppressed address with an unchanged hit count from `true` to
`false`. -/
theorem UpdateDenyList_frame (s : RawWarmup) (tmpBBSet : Option (GoMap Nat Bool))
    (pcHitMap : Option (GoMap Nat Nat)) :
    (∀ r, s.UpdateDenyList tmpBBSet pcHitMap = .ok r →
      r.tmpBBSet = tmpBBSet ∧ r.pcHitMap = pcHitMap ∧
      r.warmup.UnderCoverBBSet = s.UnderCoverBBSet) ∧
    (∀ w : Warmup, ∃ r, w.toRaw.UpdateDenyList tmpBBSet pcHitMap = .ok r ∧
      r.tmpBBSet = tmpBBSet ∧ r.pcHitMap = pcHitMap ∧
      r.warmup.UnderCoverBBSet = w.toRaw.UnderCoverBBSet) ∧
    (∃ r, denyOne.toRaw.DenyCheck (some (single true)) (some (single 5)) = .ok r ∧
      lookup r.tmpBBSet 1 = some false ∧ lookup (some (single true)) 1 = some true) := by
  have hfirst : ∀ (t : RawWarmup) (r : RawResult), t.UpdateDenyList tmpBBSet pcHitMap = .ok r →
      r.tmpBBSet = tmpBBSet ∧ r.pcHitMap = pcHitMap ∧
      r.warmup.UnderCoverBBSet = t.UnderCoverBBSet := by
    intro t r hok
    unfold RawWarmup.UpdateDenyList at hok
    split at hok
    · cases hok
      exact ⟨rfl, rfl, rfl⟩
    · cases h1 : (entriesOf t.DenyList).foldlM (RawUpdateDenyList.maintenance pcHitMap)
          t.DenyList with
      | error e =>
        rw [h1] at hok
        cases hok
      | ok dl1 =>
        rw [h1] at hok
        cases h2 : (entriesOf tmpBBSet).foldlM (RawUpdateDenyList.admission pcHitMap) dl1 with
        | error e =>
          simp only [bind, Except.bind, h2] at hok
          cases hok
        | ok dl2 =>
          simp only [bind, Except.bind, h2] at hok
          cases hok
          exact ⟨rfl, rfl, rfl⟩
  refine ⟨hfirst s, ?_, ?_⟩
  · intro w
    exact ⟨_, RawWarmup.UpdateDenyList_ok w tmpBBSet pcHitMap,
      hfirst _ _ (RawWarmup.UpdateDenyList_ok w tmpBBSet pcHitMap)⟩
  · exact ⟨_, RawWarmup.DenyCheck_ok denyOne (some (single true)) (some (single 5)),
      by decide, by decide⟩

end Fuzzer
